import Mathlib

/-!
# Linera Game Station — verification of the hub contract

Shallow embedding of `src/contracts/game-station/src/{lib.rs, state.rs,
contract.rs, room_contract.rs}`.  Rust strings are modelled by Lean
`String` (a wrapper around `List Char` in this toolchain); the byte-level
string operations the contract uses (`split`, `lines`, integer `parse`)
are re-implemented below over `String.data` so they compute and can be
reasoned about symbolically.  Machine integers are `Nat` with an explicit
`% 2 ^ w` at each point where wrap-around is observable (release builds of
the contract wrap).  Rust code that can panic (slice indexing, `expect`)
is modelled with `Option`, `none` standing for a panic/abort.
-/

namespace GameStation

/-! ## Enumerations (lib.rs) -/

/-- `GameType` from lib.rs. -/
inductive GameType where
  | Snake
  | TicTacToe
  | SnakeLadders
  | Uno
deriving DecidableEq, Repr

/-- `GameMode` from lib.rs. -/
inductive GameMode where
  | Solo
  | Practice
  | Multiplayer
deriving DecidableEq, Repr

/-- `RoomStatus` from lib.rs. -/
inductive RoomStatus where
  | Waiting
  | InProgress
  | Finished
deriving DecidableEq, Repr

/-- `TournamentStatus` from lib.rs. -/
inductive TournamentStatus where
  | Registration
  | InProgress
  | Completed
deriving DecidableEq, Repr

/-- `ChallengeStatus` from lib.rs. -/
inductive ChallengeStatus where
  | Pending
  | Accepted
  | Declined
  | Completed
deriving DecidableEq, Repr

/-! ## Record types (lib.rs) -/

/-- `GameStats` from lib.rs (all counters are u32 except total_score: u64). -/
structure GameStats where
  games_played : Nat
  wins : Nat
  losses : Nat
  high_score : Nat
  total_score : Nat
deriving DecidableEq, Repr

/-- `Default::default()` for `GameStats`. -/
def GameStats.default : GameStats :=
  { games_played := 0, wins := 0, losses := 0, high_score := 0, total_score := 0 }

/-- `UserProfile` from lib.rs (level: u32, xp: u64). -/
structure UserProfile where
  address : String
  username : String
  avatar_id : Nat
  level : Nat
  xp : Nat
  snake_stats : GameStats
  tictactoe_stats : GameStats
  snakeladders_stats : GameStats
  uno_stats : GameStats
  joined_at : Nat
deriving DecidableEq, Repr

/-- `LeaderboardEntry` from lib.rs (score, rank: u32). -/
structure LeaderboardEntry where
  player_id : String
  player_name : String
  score : Nat
  rank : Nat
deriving DecidableEq, Repr

/-- `GameRoom` from lib.rs (max_players: u8, entry_fee: u64). -/
structure GameRoom where
  id : String
  game_type : GameType
  creator : String
  players : List String
  max_players : Nat
  entry_fee : Nat
  status : RoomStatus
  current_state : String
  winner : Option String
  created_at : Nat
  last_move_time : Nat
  game_mode : GameMode
deriving DecidableEq, Repr

/-- `TournamentBracket` from lib.rs. -/
structure TournamentBracket where
  player1 : String
  player2 : String
deriving DecidableEq, Repr

/-- `Tournament` from lib.rs (max_players: u8, current_round: u32). -/
structure Tournament where
  id : String
  name : String
  game_type : GameType
  creator : String
  participants : List String
  max_players : Nat
  status : TournamentStatus
  current_round : Nat
  brackets : List TournamentBracket
  created_at : Nat
deriving DecidableEq, Repr

/-- `FriendEntry` from lib.rs. -/
structure FriendEntry where
  address : String
  added_at : Nat
deriving DecidableEq, Repr

/-- `FriendRequest` from lib.rs. -/
structure FriendRequest where
  from_address : String
  timestamp : Nat
deriving DecidableEq, Repr

/-- `Challenge` from lib.rs (wager, created_at, expires_at: u64). -/
structure Challenge where
  id : String
  challenger : String
  opponent : String
  game_type : GameType
  wager : Nat
  status : ChallengeStatus
  created_at : Nat
  expires_at : Nat
deriving DecidableEq, Repr

/-- `Operation` from lib.rs — the full client-action vocabulary of the hub. -/
inductive Operation where
  | SubmitSnakeScore (score : Nat) (game_mode : GameMode)
  | SubmitTicTacToeResult (won : Bool) (game_mode : GameMode)
  | SubmitSnakeLaddersResult (won : Bool) (game_mode : GameMode)
  | SubmitUnoResult (won : Bool) (game_mode : GameMode)
  | UpdateProfile (username : String) (avatar_id : Nat)
  | CreateRoom (game_type : GameType) (max_players : Nat) (entry_fee : Nat) (game_mode : GameMode)
  | JoinRoom (room_id : String)
  | LeaveRoom (room_id : String)
  | MakeMove (room_id : String) (move_data : String)
  | CloseRoom (room_id : String)
  | CreateTournament (name : String) (game_type : GameType) (max_players : Nat)
  | JoinTournament (tournament_id : String)
  | StartTournament (tournament_id : String)
  | AdvanceTournament (tournament_id : String) (match_id : String) (winner : String)
  | SendFriendRequest (to_address : String)
  | AcceptFriendRequest (from_address : String)
  | RejectFriendRequest (from_address : String)
  | RemoveFriend (friend_address : String)
  | CreateChallenge (opponent : String) (game_type : GameType) (wager : Nat)
  | AcceptChallenge (challenge_id : String)
  | DeclineChallenge (challenge_id : String)
deriving DecidableEq, Repr

/-- `Message` from lib.rs — cross-chain messages.  `ChainId` values are
modelled by their formatted string. -/
inductive Message where
  | RoomCreated (room_id creator : String) (game_type : GameType)
  | PlayerJoinedRoom (room_id player : String)
  | GameMove (room_id player move_data : String)
  | GameEnded (room_id : String) (winner : Option String)
  | TournamentStarted (tournament_id : String)
  | MatchCompleted (tournament_id match_id winner : String)
  | InitializeRoom (room_id : String) (game_type : GameType) (creator : String)
      (max_players : Nat) (creator_chain : String)
  | RoomChainReady (room_id creator : String) (game_type : GameType) (room_chain_id : String)
  | PlayerJoiningRoom (room_id player : String)
  | ProcessMove (room_id player move_data : String)
  | GameEndedWithStats (room_id : String) (winner : Option String)
      (player_stats : List (String × Nat)) (game_type : GameType) (duration_seconds : Nat)
deriving DecidableEq, Repr

/-! ## String primitives

The contract manipulates its serialized game state with `str::split`,
`str::lines` and `str::parse`; these are modelled over `String.data`. -/

/-- Rust `str::split(sep)` for a one-character separator: splits at every
occurrence, keeping empty segments; the empty string yields one empty
segment. -/
def splitChar (sep : Char) : List Char → List (List Char)
  | [] => [[]]
  | c :: cs =>
    if c = sep then [] :: splitChar sep cs
    else
      match splitChar sep cs with
      | [] => [[c]]
      | h :: t => (c :: h) :: t

/-- `splitChar` never returns the empty list. -/
theorem splitChar_ne_nil (sep : Char) (l : List Char) : splitChar sep l ≠ [] := by
  cases l with
  | nil => simp [splitChar]
  | cons c cs =>
    simp only [splitChar]
    split
    · simp
    · split <;> simp_all

/-- Drop a single trailing carriage return, as Rust `str::lines` does for
each line terminated by a newline. -/
def stripCR (l : List Char) : List Char :=
  if l.getLast? = some '\r' then l.dropLast else l

/-- Rust `str::lines`: split at every newline; every segment that was
terminated by a newline loses one trailing CR; a final empty segment
(trailing newline) produces no extra line. -/
def rustLines (s : String) : List (List Char) :=
  let parts := splitChar '\n' s.data
  let body := parts.dropLast.map stripCR
  match parts.getLast? with
  | some [] => body
  | some lst => body ++ [lst]
  | none => body

/-- Rust `str::parse::<uN>` for unsigned integers of width `w` bits:
an optional leading plus sign, then one or more decimal digits, value
below `2 ^ w`; anything else is an error. -/
def rustParseUInt (w : Nat) (s : String) : Option Nat :=
  let t := if s.data.head? = some '+' then s.data.tail else s.data
  if t = [] ∨ ¬ t.all Char.isDigit then none
  else
    let v := t.foldl (fun acc c => acc * 10 + (c.toNat - 48)) 0
    if v < 2 ^ w then some v else none

/-- `parse::<usize>` on the 64-bit targets the contract builds for. -/
def rustParseUsize (s : String) : Option Nat := rustParseUInt 64 s

/-- `parse::<u32>`. -/
def rustParseU32 (s : String) : Option Nat := rustParseUInt 32 s

/-! ## TicTacToe rule engine

`contract.rs` (hub fallback) and `room_contract.rs` (shard) each carry a
copy of `process_tictactoe_move` / `check_tictactoe_win`; the two move
functions differ in how a field that fails to parse is treated, so both
are embedded, in namespaces `Hub` and `RoomChain`.  Results are `Option`:
`none` models a Rust panic (out-of-range indexing, `players[0]` on an
empty list). -/

/-- One `c0 != '-' && c0 == c1 && c1 == c2` test with Rust short-circuit
evaluation: later cells are only forced (possibly panicking) when the
earlier conjuncts hold. -/
def tttLine (c0 c1 c2 : Option Char) : Option Bool := do
  let a ← c0
  if a = '-' then pure false
  else do
    let b ← c1
    if a ≠ b then pure false
    else do
      let c ← c2
      pure (b = c)

/-- The hub row loop: `for row in &board`, early `return true` on a winning
row; each test indexes `row[0]`, `row[1]`, `row[2]` unchecked. -/
def tttRowsHub : List (List Char) → Option Bool
  | [] => some false
  | row :: rest => do
    let w ← tttLine (row.get? 0) (row.get? 1) (row.get? 2)
    if w then pure true else tttRowsHub rest

/-- The shard row loop: identical but guarded by `row.len() == 3`, so a
short row is skipped instead of panicking. -/
def tttRowsRoom : List (List Char) → Option Bool
  | [] => some false
  | row :: rest =>
    if row.length = 3 then do
      let w ← tttLine (row.get? 0) (row.get? 1) (row.get? 2)
      if w then pure true else tttRowsRoom rest
    else tttRowsRoom rest

/-- Column loop (`for x in 0..3`) and the two-diagonal disjunction shared
verbatim by both copies of `check_tictactoe_win`; the board is known to
have exactly three rows here. -/
def tttColsDiags (r0 r1 r2 : List Char) : Option Bool := do
  let w ← tttLine (r0.get? 0) (r1.get? 0) (r2.get? 0)
  if w then pure true else do
  let w ← tttLine (r0.get? 1) (r1.get? 1) (r2.get? 1)
  if w then pure true else do
  let w ← tttLine (r0.get? 2) (r1.get? 2) (r2.get? 2)
  if w then pure true else do
  let d1 ← tttLine (r0.get? 0) (r1.get? 1) (r2.get? 2)
  if d1 then pure true
  else tttLine (r0.get? 2) (r1.get? 1) (r2.get? 0)

namespace Hub

/-- `process_tictactoe_move` from contract.rs: fields that fail to parse
become coordinate 0 (`parse().unwrap_or(0)`). -/
def process_tictactoe_move (current_state move_data player : String)
    (players : List String) : Option String :=
  match splitChar ',' move_data.data with
  | [p0, p1] =>
    let x := (rustParseUsize (String.mk p0)).getD 0
    let y := (rustParseUsize (String.mk p1)).getD 0
    if 3 ≤ x ∨ 3 ≤ y then some current_state
    else
      let board : List (List Char) :=
        if current_state = "" then List.replicate 3 (List.replicate 3 '-')
        else rustLines current_state
      match players.head? with
      | none => none
      | some first =>
        let symbol := if player = first then 'X' else 'O'
        match board.get? y with
        | none => none
        | some row =>
          match row.get? x with
          | none => none
          | some cell =>
            let board2 := if cell = '-' then board.set y (row.set x symbol) else board
            some (String.mk (List.intercalate ['\n'] board2))
  | _ => some current_state

/-- `check_tictactoe_win` from contract.rs. -/
def check_tictactoe_win (state : String) : Option Bool :=
  if state = "" then some false
  else
    match rustLines state with
    | [r0, r1, r2] => do
      let w ← tttRowsHub [r0, r1, r2]
      if w then pure true else tttColsDiags r0 r1 r2
    | _ => some false

end Hub

namespace RoomChain

/-- `process_tictactoe_move` from room_contract.rs: a field that fails to
parse returns the state unchanged (`match parse { Err => return state }`). -/
def process_tictactoe_move (current_state move_data player : String)
    (players : List String) : Option String :=
  match splitChar ',' move_data.data with
  | [p0, p1] =>
    match rustParseUsize (String.mk p0) with
    | none => some current_state
    | some x =>
      match rustParseUsize (String.mk p1) with
      | none => some current_state
      | some y =>
        if 3 ≤ x ∨ 3 ≤ y then some current_state
        else
          let board : List (List Char) :=
            if current_state = "" then List.replicate 3 (List.replicate 3 '-')
            else rustLines current_state
          match players.head? with
          | none => none
          | some first =>
            let symbol := if player = first then 'X' else 'O'
            match board.get? y with
            | none => none
            | some row =>
              match row.get? x with
              | none => none
              | some cell =>
                let board2 := if cell = '-' then board.set y (row.set x symbol) else board
                some (String.mk (List.intercalate ['\n'] board2))
  | _ => some current_state

/-- `check_tictactoe_win` from room_contract.rs (row tests carry a
`row.len() == 3` guard; columns and diagonals are identical to the hub). -/
def check_tictactoe_win (state : String) : Option Bool :=
  if state = "" then some false
  else
    match rustLines state with
    | [r0, r1, r2] => do
      let w ← tttRowsRoom [r0, r1, r2]
      if w then pure true else tttColsDiags r0 r1 r2
    | _ => some false

end RoomChain

/-! ## SnakeLadders rule engine (contract.rs) -/

/-- `HashMap::insert`: replace the value in place when the key is present,
append otherwise.  The Rust `HashMap` fixes no iteration order; this list
keeps first-insertion order as a canonical choice (no claim below depends
on the serialization order). -/
def posInsert (k : String) (v : Nat) : List (String × Nat) → List (String × Nat)
  | [] => [(k, v)]
  | (k2, v2) :: rest => if k2 = k then (k, v) :: rest else (k2, v2) :: posInsert k v rest

/-- `HashMap::get`: the value stored at `k` (keys are unique, so the
first match is the match). -/
def posLookup : List (String × Nat) → String → Option Nat
  | [], _ => none
  | e :: rest, k => if e.1 = k then some e.2 else posLookup rest k

/-- The position map built by the parsing loop of
`process_snakeladders_move`: entries of the form `name:pos` with a valid
u32 position are inserted in order, later duplicates overwriting. -/
def parsePositions (current_state : String) : List (String × Nat) :=
  if current_state = "" then []
  else
    (splitChar ',' current_state.data).foldl
      (fun m entry =>
        match splitChar ':' entry with
        | [k, v] =>
          match rustParseU32 (String.mk v) with
          | some pos => posInsert (String.mk k) pos m
          | none => m
        | _ => m)
      []

/-- The final `positions.iter().map(format!(...)).join(",")` of
`process_snakeladders_move`, over the canonical entry order. -/
def serializePositions (l : List (String × Nat)) : String :=
  ",".intercalate (l.map fun e => e.1 ++ ":" ++ toString e.2)

/-- The fixed snake/ladder relocation `match` of
`process_snakeladders_move`; the Rust match arms are distinct integer
literals, so the equality chain is equivalent. -/
def snakeLaddersTable (p : Nat) : Nat :=
  if p = 16 then 6 else if p = 47 then 26 else if p = 49 then 11 else
  if p = 56 then 53 else if p = 62 then 19 else if p = 64 then 60 else
  if p = 87 then 24 else if p = 93 then 73 else if p = 95 then 75 else
  if p = 98 then 78 else
  if p = 1 then 38 else if p = 4 then 14 else if p = 9 then 31 else
  if p = 21 then 42 else if p = 28 then 84 else if p = 36 then 44 else
  if p = 51 then 67 else if p = 71 then 91 else if p = 80 then 100 else p

/-- `process_snakeladders_move` from contract.rs.  `Sum.inl s` models the
early `return current_state.to_string()` (the exact input string);
`Sum.inr m` models returning the serialization of position map `m` — the
source serializes a `HashMap` whose iteration order it does not fix, so
the result is described by the map itself.  Position arithmetic is u32
(`% 2 ^ 32`). -/
def process_snakeladders_move (current_state move_data player : String) :
    String ⊕ List (String × Nat) :=
  let positions := parsePositions current_state
  let dice := (rustParseU32 move_data).getD 0
  if dice < 1 ∨ 6 < dice then Sum.inl current_state
  else
    let current_pos := (posLookup positions player).getD 0
    let moved := (current_pos + dice) % 2 ^ 32
    let relocated := snakeLaddersTable moved
    let final := if 100 < relocated then current_pos else relocated
    Sum.inr (posInsert player final positions)

/-- The entry scan of `check_snakeladders_win`: the first `name:pos` entry
naming the player with a valid u32 position decides the answer; a matching
entry whose position fails to parse is skipped. -/
def snakeWinScan (player : String) : List (List Char) → Bool
  | [] => false
  | e :: rest =>
    match splitChar ':' e with
    | [k, v] =>
      if String.mk k = player then
        match rustParseU32 (String.mk v) with
        | some pos => 100 ≤ pos
        | none => snakeWinScan player rest
      else snakeWinScan player rest
    | _ => snakeWinScan player rest

/-- `check_snakeladders_win` from contract.rs. -/
def check_snakeladders_win (state player : String) : Bool :=
  snakeWinScan player (splitChar ',' state.data)

/-! ## Tournament engine (contract.rs) -/

/-- `generate_tournament_brackets`: the Rust loop steps indices by two and
emits a bracket whenever `i + 1` is still in range, which is exactly this
recursion (a trailing unpaired participant produces no bracket). -/
def generate_tournament_brackets : List String → List TournamentBracket
  | p1 :: p2 :: rest => ⟨p1, p2⟩ :: generate_tournament_brackets rest
  | _ => []

/-- The `format!("{}-{}", bracket.player1, bracket.player2)` match key. -/
def bracketMatchKey (b : TournamentBracket) : String :=
  b.player1 ++ "-" ++ b.player2

/-- The `brackets.retain(...)` pass of `handle_advance_tournament`:
returns the retained brackets together with the `player1` values pushed
onto `winners` (in iteration order) for every retained bracket. -/
def advanceBrackets (match_id : String) :
    List TournamentBracket → List TournamentBracket × List String
  | [] => ([], [])
  | b :: rest =>
    if bracketMatchKey b = match_id then advanceBrackets match_id rest
    else
      (b :: (advanceBrackets match_id rest).1,
       b.player1 :: (advanceBrackets match_id rest).2)

/-! ## Progression (level-up loop)

The Rust loop `while xp >= level as u64 * 1000 { xp -= ...; level += 1 }`
is embedded with explicit fuel; `levelLoop_fuel` below shows the fuel
`xp + 3` always exceeds the iteration count, so `levelUp` computes the
loop exactly.  `level` is u32 (the increment wraps), `xp` is u64 and only
decreases inside the loop. -/

/-- One fuelled run of the level-up while loop. -/
def levelLoop : Nat → Nat → Nat → Nat × Nat
  | 0, level, xp => (level, xp)
  | fuel + 1, level, xp =>
    if level * 1000 ≤ xp then levelLoop fuel ((level + 1) % 2 ^ 32) (xp - level * 1000)
    else (level, xp)

/-- The level-up loop of contract.rs, applied to a profile's
`(level, xp)`. -/
def levelUp (level xp : Nat) : Nat × Nat := levelLoop (xp + 3) level xp

/-! ## Leaderboard maintenance (contract.rs) -/

/-- The `iter_mut().find(...)` / `push` step of `update_leaderboard`: the
first entry with the same player id is replaced in place when the new
score is strictly greater; with no such entry the new one is appended. -/
def replaceOrInsert (entry : LeaderboardEntry) :
    List LeaderboardEntry → List LeaderboardEntry
  | [] => [entry]
  | h :: t =>
    if h.player_id = entry.player_id then
      (if h.score < entry.score then entry else h) :: t
    else h :: replaceOrInsert entry t

/-- Stable descending insertion: walk past strictly greater scores only,
so an element inserted from the left stays in front of equal scores. -/
def insertDesc (e : LeaderboardEntry) :
    List LeaderboardEntry → List LeaderboardEntry
  | [] => [e]
  | h :: t => if e.score < h.score then h :: insertDesc e t else e :: h :: t

/-- `leaderboard.sort_by(|a, b| b.score.cmp(&a.score))`: Rust `sort_by` is
a stable sort, and a stable sort under a fixed comparator has a unique
output — the insertion sort below produces exactly that output (sorted
descending by score, ties in original order). -/
def sortDesc : List LeaderboardEntry → List LeaderboardEntry
  | [] => []
  | h :: t => insertDesc h (sortDesc t)

/-- The rank-reassignment loop: `entry.rank = (i + 1) as u32` by position. -/
def assignRanks (l : List LeaderboardEntry) : List LeaderboardEntry :=
  l.enum.map fun e => { e.2 with rank := (e.1 + 1) % 2 ^ 32 }

/-- `update_leaderboard` from contract.rs as a pure transformation of one
leaderboard list: replace-or-insert, stable sort descending, reassign
1-based ranks, truncate to 100. -/
def update_leaderboard (leaderboard : List LeaderboardEntry)
    (player_id player_name : String) (score : Nat) : List LeaderboardEntry :=
  let entry : LeaderboardEntry :=
    { player_id := player_id, player_name := player_name, score := score, rank := 0 }
  ((sortDesc (replaceOrInsert entry leaderboard)) |> assignRanks).take 100

/-! ## Operation fingerprints (contract.rs `generate_operation_id`) -/

/-- Debug rendering of `GameType` (derived `Debug`). -/
def gameTypeDebug : GameType → String
  | .Snake => "Snake"
  | .TicTacToe => "TicTacToe"
  | .SnakeLadders => "SnakeLadders"
  | .Uno => "Uno"

/-- `format!("{:?}", game_type).to_lowercase()` — the per-game leaderboard
key and room-id fragment. -/
def gameKey : GameType → String
  | .Snake => "snake"
  | .TicTacToe => "tictactoe"
  | .SnakeLadders => "snakeladders"
  | .Uno => "uno"

/-- Debug rendering of `GameMode`. -/
def gameModeDebug : GameMode → String
  | .Solo => "Solo"
  | .Practice => "Practice"
  | .Multiplayer => "Multiplayer"

/-- Debug escaping of one character inside a Rust `String` Debug render
(the common escapes; exotic control characters are left unescaped here —
no claim depends on the exact fingerprint text). -/
def rustDebugChar (c : Char) : List Char :=
  if c = '"' then ['\\', '"'] else if c = '\\' then ['\\', '\\']
  else if c = '\n' then ['\\', 'n'] else if c = '\r' then ['\\', 'r']
  else if c = '\t' then ['\\', 't'] else [c]

/-- Debug rendering of a `String` field. -/
def rustDebugStr (s : String) : String :=
  "\"" ++ String.mk (s.data.flatMap rustDebugChar) ++ "\""

/-- Debug rendering of a `bool` field. -/
def boolDebug (b : Bool) : String := if b then "true" else "false"

/-- `format!("{:?}", operation)` for the derived `Debug` of `Operation`. -/
def operationDebug : Operation → String
  | .SubmitSnakeScore score gm =>
      "SubmitSnakeScore \x7b score: " ++ toString score ++ ", game_mode: " ++
        gameModeDebug gm ++ " \x7d"
  | .SubmitTicTacToeResult won gm =>
      "SubmitTicTacToeResult \x7b won: " ++ boolDebug won ++ ", game_mode: " ++
        gameModeDebug gm ++ " \x7d"
  | .SubmitSnakeLaddersResult won gm =>
      "SubmitSnakeLaddersResult \x7b won: " ++ boolDebug won ++ ", game_mode: " ++
        gameModeDebug gm ++ " \x7d"
  | .SubmitUnoResult won gm =>
      "SubmitUnoResult \x7b won: " ++ boolDebug won ++ ", game_mode: " ++
        gameModeDebug gm ++ " \x7d"
  | .UpdateProfile username avatar_id =>
      "UpdateProfile \x7b username: " ++ rustDebugStr username ++ ", avatar_id: " ++
        toString avatar_id ++ " \x7d"
  | .CreateRoom gt mp fee gm =>
      "CreateRoom \x7b game_type: " ++ gameTypeDebug gt ++ ", max_players: " ++
        toString mp ++ ", entry_fee: " ++ toString fee ++ ", game_mode: " ++
        gameModeDebug gm ++ " \x7d"
  | .JoinRoom room_id =>
      "JoinRoom \x7b room_id: " ++ rustDebugStr room_id ++ " \x7d"
  | .LeaveRoom room_id =>
      "LeaveRoom \x7b room_id: " ++ rustDebugStr room_id ++ " \x7d"
  | .MakeMove room_id move_data =>
      "MakeMove \x7b room_id: " ++ rustDebugStr room_id ++ ", move_data: " ++
        rustDebugStr move_data ++ " \x7d"
  | .CloseRoom room_id =>
      "CloseRoom \x7b room_id: " ++ rustDebugStr room_id ++ " \x7d"
  | .CreateTournament name gt mp =>
      "CreateTournament \x7b name: " ++ rustDebugStr name ++ ", game_type: " ++
        gameTypeDebug gt ++ ", max_players: " ++ toString mp ++ " \x7d"
  | .JoinTournament tid =>
      "JoinTournament \x7b tournament_id: " ++ rustDebugStr tid ++ " \x7d"
  | .StartTournament tid =>
      "StartTournament \x7b tournament_id: " ++ rustDebugStr tid ++ " \x7d"
  | .AdvanceTournament tid mid winner =>
      "AdvanceTournament \x7b tournament_id: " ++ rustDebugStr tid ++ ", match_id: " ++
        rustDebugStr mid ++ ", winner: " ++ rustDebugStr winner ++ " \x7d"
  | .SendFriendRequest a =>
      "SendFriendRequest \x7b to_address: " ++ rustDebugStr a ++ " \x7d"
  | .AcceptFriendRequest a =>
      "AcceptFriendRequest \x7b from_address: " ++ rustDebugStr a ++ " \x7d"
  | .RejectFriendRequest a =>
      "RejectFriendRequest \x7b from_address: " ++ rustDebugStr a ++ " \x7d"
  | .RemoveFriend a =>
      "RemoveFriend \x7b friend_address: " ++ rustDebugStr a ++ " \x7d"
  | .CreateChallenge opp gt wager =>
      "CreateChallenge \x7b opponent: " ++ rustDebugStr opp ++ ", game_type: " ++
        gameTypeDebug gt ++ ", wager: " ++ toString wager ++ " \x7d"
  | .AcceptChallenge cid =>
      "AcceptChallenge \x7b challenge_id: " ++ rustDebugStr cid ++ " \x7d"
  | .DeclineChallenge cid =>
      "DeclineChallenge \x7b challenge_id: " ++ rustDebugStr cid ++ " \x7d"

/-- `generate_operation_id`: `format!("{:?}-{}-{}", operation, owner, now)`
with `now` the wall-clock micros taken at dispatch time. -/
def generate_operation_id (operation : Operation) (owner : String) (now : Nat) : String :=
  operationDebug operation ++ "-" ++ owner ++ "-" ++ toString now

/-! ## Hub state (state.rs `GameStationState`) and runtime environment -/

/-- A `MapView` keyed by strings (`ChainId` keys are modelled by their
formatted string). -/
def StrMap (V : Type) : Type := String → Option V

/-- The empty map. -/
def StrMap.empty {V : Type} : StrMap V := fun _ => none

/-- `MapView::insert`. -/
def StrMap.insert {V : Type} (m : StrMap V) (k : String) (v : V) : StrMap V :=
  fun q => if q = k then some v else m q

/-- `MapView::remove`. -/
def StrMap.remove {V : Type} (m : StrMap V) (k : String) : StrMap V :=
  fun q => if q = k then none else m q

/-- `GameStationState` from state.rs (registers inlined; 64-bit counters). -/
structure GameStationState where
  users : StrMap UserProfile
  snake_high_scores : StrMap Nat
  leaderboards : StrMap (List LeaderboardEntry)
  total_games : Nat
  total_players : Nat
  rooms : StrMap GameRoom
  room_counter : Nat
  active_room_ids : List String
  tournaments : StrMap Tournament
  tournament_counter : Nat
  active_tournament_ids : List String
  friends : StrMap (List FriendEntry)
  friend_requests : StrMap (List FriendRequest)
  challenges : StrMap Challenge
  challenge_counter : Nat
  user_challenges : StrMap (List String)
  sent_messages : StrMap Bool
  processed_operations : StrMap Bool
  room_chains : StrMap String
  chain_to_room : StrMap String
  main_chain_id : Option String

/-- The runtime inputs one hub transaction observes: the authenticated
signer (already Debug-formatted, `none` when absent), the consensus time
`system_time().micros()`, the wall clock `SystemTime::now()` read inside
`generate_operation_id`, and the chain id `open_chain` would allocate. -/
structure Env where
  signer : Option String
  sysTime : Nat
  wallClock : Nat
  freshChainId : String

/-- The state `instantiate` produces (fields not set there start out as
empty views). -/
def instantiateState (main_chain_id : String) : GameStationState :=
  { users := StrMap.empty
    snake_high_scores := StrMap.empty
    leaderboards := StrMap.empty
    total_games := 0
    total_players := 0
    rooms := StrMap.empty
    room_counter := 0
    active_room_ids := []
    tournaments := StrMap.empty
    tournament_counter := 0
    active_tournament_ids := []
    friends := StrMap.empty
    friend_requests := StrMap.empty
    challenges := StrMap.empty
    challenge_counter := 0
    user_challenges := StrMap.empty
    sent_messages := StrMap.empty
    processed_operations := StrMap.empty
    room_chains := StrMap.empty
    chain_to_room := StrMap.empty
    main_chain_id := some main_chain_id }

/-! ## Hub handlers (contract.rs).  Each returns `Option`: `none` models a
panic aborting the transaction. -/

/-- `get_or_create_profile`: a missing profile is created with username
`"Player" ++ first 8 characters`; the slice `&address[..8]` panics when the
address is shorter than 8 (byte indexing, modelled over characters). -/
def get_or_create_profile (env : Env) (s : GameStationState) (address : String) :
    Option (UserProfile × GameStationState) :=
  match s.users address with
  | some profile => some (profile, s)
  | none =>
    if address.data.length < 8 then none
    else
      let profile : UserProfile :=
        { address := address
          username := "Player" ++ String.mk (address.data.take 8)
          avatar_id := 0
          level := 1
          xp := 0
          snake_stats := GameStats.default
          tictactoe_stats := GameStats.default
          snakeladders_stats := GameStats.default
          uno_stats := GameStats.default
          joined_at := env.sysTime }
      some (profile, { s with
        users := s.users.insert address profile
        total_players := (s.total_players + 1) % 2 ^ 64 })

/-- `update_leaderboard` applied to the stored leaderboard of `game_key`
(`unwrap_or_default` for a missing one). -/
def updateLeaderboardState (s : GameStationState)
    (game_key player_id player_name : String) (score : Nat) : GameStationState :=
  let lb := (s.leaderboards game_key).getD []
  { s with leaderboards :=
      s.leaderboards.insert game_key (update_leaderboard lb player_id player_name score) }

/-- `remove_from_active_rooms`. -/
def removeFromActiveRooms (s : GameStationState) (room_id : String) : GameStationState :=
  { s with active_room_ids := s.active_room_ids.filter (fun r => r ≠ room_id) }

/-- `handle_submit_snake_score`. -/
def handle_submit_snake_score (env : Env) (owner : String) (score : Nat)
    (game_mode : GameMode) (s : GameStationState) : Option GameStationState := do
  let ps ← get_or_create_profile env s owner
  let profile := ps.1
  let s := ps.2
  if game_mode = .Solo ∨ game_mode = .Multiplayer then
    let st := profile.snake_stats
    let st := if st.high_score < score then { st with high_score := score } else st
    let st := { st with
      games_played := (st.games_played + 1) % 2 ^ 32
      total_score := (st.total_score + score) % 2 ^ 64 }
    let xp1 := (profile.xp + score / 10) % 2 ^ 64
    let lx := levelUp profile.level xp1
    let profile := { profile with snake_stats := st, xp := lx.2, level := lx.1 }
    let s := { s with users := s.users.insert owner profile }
    let s := updateLeaderboardState s "snake_global" owner profile.username score
    pure { s with total_games := (s.total_games + 1) % 2 ^ 64 }
  else pure s

/-- `handle_submit_tictactoe_result`. -/
def handle_submit_tictactoe_result (env : Env) (owner : String) (won : Bool)
    (game_mode : GameMode) (s : GameStationState) : Option GameStationState := do
  let ps ← get_or_create_profile env s owner
  let profile := ps.1
  let s := ps.2
  if game_mode = .Solo ∨ game_mode = .Multiplayer then
    let st := profile.tictactoe_stats
    let st := { st with games_played := (st.games_played + 1) % 2 ^ 32 }
    let st := if won then { st with wins := (st.wins + 1) % 2 ^ 32 }
              else { st with losses := (st.losses + 1) % 2 ^ 32 }
    let xp1 := (profile.xp + (if won then 50 else 10)) % 2 ^ 64
    let lx := levelUp profile.level xp1
    let profile := { profile with tictactoe_stats := st, xp := lx.2, level := lx.1 }
    let s := { s with users := s.users.insert owner profile }
    let s := updateLeaderboardState s "tictactoe_global" owner profile.username
      profile.tictactoe_stats.wins
    pure { s with total_games := (s.total_games + 1) % 2 ^ 64 }
  else pure s

/-- `handle_submit_snakeladders_result` (awards 100 on a win, 20 on a
loss). -/
def handle_submit_snakeladders_result (env : Env) (owner : String) (won : Bool)
    (game_mode : GameMode) (s : GameStationState) : Option GameStationState := do
  let ps ← get_or_create_profile env s owner
  let profile := ps.1
  let s := ps.2
  if game_mode = .Solo ∨ game_mode = .Multiplayer then
    let st := profile.snakeladders_stats
    let st := { st with games_played := (st.games_played + 1) % 2 ^ 32 }
    let st := if won then { st with wins := (st.wins + 1) % 2 ^ 32 }
              else { st with losses := (st.losses + 1) % 2 ^ 32 }
    let xp1 := (profile.xp + (if won then 100 else 20)) % 2 ^ 64
    let lx := levelUp profile.level xp1
    let profile := { profile with snakeladders_stats := st, xp := lx.2, level := lx.1 }
    let s := { s with users := s.users.insert owner profile }
    let s := updateLeaderboardState s "snakeladders_global" owner profile.username
      profile.snakeladders_stats.wins
    pure { s with total_games := (s.total_games + 1) % 2 ^ 64 }
  else pure s

/-- `handle_submit_uno_result` (awards 80 on a win, 15 on a loss). -/
def handle_submit_uno_result (env : Env) (owner : String) (won : Bool)
    (game_mode : GameMode) (s : GameStationState) : Option GameStationState := do
  let ps ← get_or_create_profile env s owner
  let profile := ps.1
  let s := ps.2
  if game_mode = .Solo ∨ game_mode = .Multiplayer then
    let st := profile.uno_stats
    let st := { st with games_played := (st.games_played + 1) % 2 ^ 32 }
    let st := if won then { st with wins := (st.wins + 1) % 2 ^ 32 }
              else { st with losses := (st.losses + 1) % 2 ^ 32 }
    let xp1 := (profile.xp + (if won then 80 else 15)) % 2 ^ 64
    let lx := levelUp profile.level xp1
    let profile := { profile with uno_stats := st, xp := lx.2, level := lx.1 }
    let s := { s with users := s.users.insert owner profile }
    let s := updateLeaderboardState s "uno_global" owner profile.username
      profile.uno_stats.wins
    pure { s with total_games := (s.total_games + 1) % 2 ^ 64 }
  else pure s

/-- `handle_update_profile`. -/
def handle_update_profile (env : Env) (owner username : String) (avatar_id : Nat)
    (s : GameStationState) : Option GameStationState := do
  let ps ← get_or_create_profile env s owner
  let profile := ps.1
  let s := ps.2
  pure { s with users :=
    s.users.insert owner { profile with username := username, avatar_id := avatar_id } }

/-- `handle_create_room`.  `authenticated_signer().expect(..)` panics with
no signer; `open_chain` yields `env.freshChainId`; the `InitializeRoom`
message to the new shard leaves hub state untouched. -/
def handle_create_room (env : Env) (game_type : GameType) (max_players entry_fee : Nat)
    (game_mode : GameMode) (timestamp : Nat) (s : GameStationState) :
    Option GameStationState :=
  let room_id := "room-" ++ gameKey game_type ++ "-" ++ toString s.room_counter
  match env.signer with
  | none => none
  | some creator_str =>
    let s := { s with
      room_chains := s.room_chains.insert room_id env.freshChainId
      chain_to_room := s.chain_to_room.insert env.freshChainId room_id }
    let room : GameRoom :=
      { id := room_id
        game_type := game_type
        creator := creator_str
        players := [creator_str]
        max_players := max_players
        entry_fee := entry_fee
        status := .Waiting
        current_state := ""
        winner := none
        created_at := timestamp
        last_move_time := timestamp
        game_mode := game_mode }
    let s := { s with rooms := s.rooms.insert room_id room }
    let s := { s with active_room_ids := s.active_room_ids ++ [room_id] }
    some { s with room_counter := (s.room_counter + 1) % 2 ^ 64 }

/-- `handle_join_room`: best-effort mirror update (guarded by status,
novelty, and the `len() as u8` capacity comparison), then a
`PlayerJoiningRoom` message to the shard with no further hub effect. -/
def handle_join_room (owner room_id : String) (s : GameStationState) :
    Option GameStationState :=
  match s.rooms room_id with
  | some room =>
    if room.status = .Waiting ∧ ¬ room.players.contains owner ∧
        room.players.length % 256 < room.max_players then
      let room := { room with players := room.players ++ [owner] }
      let room := if room.max_players ≤ room.players.length % 256 then
          { room with status := .InProgress }
        else room
      some { s with rooms := s.rooms.insert room_id room }
    else some s
  | none => some s

/-- `handle_leave_room`. -/
def handle_leave_room (owner room_id : String) (s : GameStationState) :
    Option GameStationState :=
  match s.rooms room_id with
  | some room =>
    if room.status = .Waiting then
      let players := room.players.filter (fun p => p ≠ owner)
      if players = [] then
        some (removeFromActiveRooms { s with rooms := s.rooms.remove room_id } room_id)
      else
        some { s with rooms := s.rooms.insert room_id { room with players := players } }
    else some s
  | none => some s

/-- The per-game-type rule-engine step of the legacy move path (the
`match room.game_type` over the new serialized state). -/
def moveNewState (room : GameRoom) (move_data owner : String) : Option String :=
  match room.game_type with
  | .TicTacToe =>
    Hub.process_tictactoe_move room.current_state move_data owner room.players
  | .SnakeLadders =>
    match process_snakeladders_move room.current_state move_data owner with
    | .inl st => some st
    | .inr m => some (serializePositions m)
  | _ => some room.current_state

/-- The per-game-type win check of the legacy move path. -/
def moveGameWon (room : GameRoom) (owner : String) : Option Bool :=
  match room.game_type with
  | .TicTacToe => Hub.check_tictactoe_win room.current_state
  | .SnakeLadders => some (check_snakeladders_win room.current_state owner)
  | _ => some false

/-- `handle_make_move`: with a shard mapping the move is forwarded (no hub
state change); otherwise the legacy path mutates the mirror, runs the rule
engine and the win check. -/
def handle_make_move (owner room_id move_data : String) (timestamp : Nat)
    (s : GameStationState) : Option GameStationState :=
  match s.room_chains room_id with
  | some _ => some s
  | none =>
    match s.rooms room_id with
    | some room =>
      if room.status = .InProgress ∧ room.players.contains owner then do
        let room := { room with last_move_time := timestamp }
        let new_state ← moveNewState room move_data owner
        let room := { room with current_state := new_state }
        let game_won ← moveGameWon room owner
        let room := if game_won then { room with status := .Finished, winner := some owner }
          else room
        let s := if game_won then removeFromActiveRooms s room_id else s
        pure { s with rooms := s.rooms.insert room_id room }
      else some s
    | none => some s

/-- `handle_close_room`. -/
def handle_close_room (room_id : String) (s : GameStationState) :
    Option GameStationState :=
  match s.rooms room_id with
  | some room =>
    some (removeFromActiveRooms
      { s with rooms := s.rooms.insert room_id { room with status := .Finished } } room_id)
  | none => some s

/-- `handle_create_tournament`. -/
def handle_create_tournament (owner name : String) (game_type : GameType)
    (max_players timestamp : Nat) (s : GameStationState) : Option GameStationState :=
  let tournament_id := "tournament-" ++ toString s.tournament_counter
  let tournament : Tournament :=
    { id := tournament_id
      name := name
      game_type := game_type
      creator := owner
      participants := []
      max_players := max_players
      status := .Registration
      current_round := 0
      brackets := []
      created_at := timestamp }
  let s := { s with
    tournaments := s.tournaments.insert tournament_id tournament
    tournament_counter := (s.tournament_counter + 1) % 2 ^ 64 }
  some { s with active_tournament_ids := s.active_tournament_ids ++ [tournament_id] }

/-- `handle_join_tournament`. -/
def handle_join_tournament (owner tournament_id : String) (s : GameStationState) :
    Option GameStationState :=
  match s.tournaments tournament_id with
  | some t =>
    if t.status = .Registration ∧ ¬ t.participants.contains owner ∧
        t.participants.length % 256 < t.max_players then
      some { s with tournaments :=
        s.tournaments.insert tournament_id { t with participants := t.participants ++ [owner] } }
    else some s
  | none => some s

/-- `handle_start_tournament`. -/
def handle_start_tournament (tournament_id : String) (s : GameStationState) :
    Option GameStationState :=
  match s.tournaments tournament_id with
  | some t =>
    if t.status = .Registration ∧ 2 ≤ t.participants.length then
      let t2 : Tournament := { t with
        status := .InProgress
        current_round := 1
        brackets := generate_tournament_brackets t.participants }
      some { s with tournaments := s.tournaments.insert tournament_id t2 }
    else some s
  | none => some s

/-- `handle_advance_tournament`. -/
def handle_advance_tournament (tournament_id match_id winner : String)
    (s : GameStationState) : Option GameStationState :=
  match s.tournaments tournament_id with
  | some t =>
    if t.status = .InProgress then
      let kept := (advanceBrackets match_id t.brackets).1
      let winners := winner :: (advanceBrackets match_id t.brackets).2
      let t := { t with brackets := kept }
      let t :=
        if kept = [] then
          if winners.length = 1 then { t with status := .Completed }
          else { t with
            current_round := (t.current_round + 1) % 2 ^ 32
            brackets := generate_tournament_brackets winners }
        else t
      some { s with tournaments := s.tournaments.insert tournament_id t }
    else some s
  | none => some s

/-- `handle_send_friend_request`. -/
def handle_send_friend_request (owner to_address : String) (timestamp : Nat)
    (s : GameStationState) : Option GameStationState :=
  let requests := (s.friend_requests to_address).getD []
  if requests.any (fun r => r.from_address = owner) then some s
  else some { s with friend_requests :=
    s.friend_requests.insert to_address (requests ++ [⟨owner, timestamp⟩]) }

/-- `handle_accept_friend_request`: drop the request, then add the two
symmetric friend edges (each only when absent, reading the state already
updated by the previous step). -/
def handle_accept_friend_request (owner from_address : String) (timestamp : Nat)
    (s : GameStationState) : Option GameStationState :=
  let requests := ((s.friend_requests owner).getD []).filter
    (fun r => r.from_address ≠ from_address)
  let s := { s with friend_requests := s.friend_requests.insert owner requests }
  let owner_friends := (s.friends owner).getD []
  let s :=
    if owner_friends.any (fun f => f.address = from_address) then s
    else { s with friends :=
      s.friends.insert owner (owner_friends ++ [⟨from_address, timestamp⟩]) }
  let from_friends := (s.friends from_address).getD []
  let s :=
    if from_friends.any (fun f => f.address = owner) then s
    else { s with friends :=
      s.friends.insert from_address (from_friends ++ [⟨owner, timestamp⟩]) }
  some s

/-- `handle_reject_friend_request`. -/
def handle_reject_friend_request (owner from_address : String)
    (s : GameStationState) : Option GameStationState :=
  let requests := ((s.friend_requests owner).getD []).filter
    (fun r => r.from_address ≠ from_address)
  some { s with friend_requests := s.friend_requests.insert owner requests }

/-- `handle_remove_friend`. -/
def handle_remove_friend (owner friend_address : String) (s : GameStationState) :
    Option GameStationState :=
  let owner_friends := ((s.friends owner).getD []).filter
    (fun f => f.address ≠ friend_address)
  let s := { s with friends := s.friends.insert owner owner_friends }
  let friend_friends := ((s.friends friend_address).getD []).filter
    (fun f => f.address ≠ owner)
  some { s with friends := s.friends.insert friend_address friend_friends }

/-- `handle_create_challenge` (24-hour expiry in microseconds, u64). -/
def handle_create_challenge (owner opponent : String) (game_type : GameType)
    (wager timestamp : Nat) (s : GameStationState) : Option GameStationState :=
  let challenge_id := "challenge-" ++ toString s.challenge_counter
  let challenge : Challenge :=
    { id := challenge_id
      challenger := owner
      opponent := opponent
      game_type := game_type
      wager := wager
      status := .Pending
      created_at := timestamp
      expires_at := (timestamp + 24 * 60 * 60 * 1000000) % 2 ^ 64 }
  let s := { s with challenges := s.challenges.insert challenge_id challenge }
  some { s with challenge_counter := (s.challenge_counter + 1) % 2 ^ 64 }

/-- `handle_accept_challenge`: accepted only by the designated opponent
while still `Pending` and strictly before the expiry. -/
def handle_accept_challenge (owner challenge_id : String) (timestamp : Nat)
    (s : GameStationState) : Option GameStationState :=
  match s.challenges challenge_id with
  | some challenge =>
    if challenge.opponent = owner ∧ challenge.status = .Pending ∧
        timestamp < challenge.expires_at then
      some { s with challenges :=
        s.challenges.insert challenge_id { challenge with status := .Accepted } }
    else some s
  | none => some s

/-- `handle_decline_challenge`: declines any `Pending` challenge; the
handler receives no caller identity at all. -/
def handle_decline_challenge (challenge_id : String) (s : GameStationState) :
    Option GameStationState :=
  match s.challenges challenge_id with
  | some challenge =>
    if challenge.status = .Pending then
      some { s with challenges :=
        s.challenges.insert challenge_id { challenge with status := .Declined } }
    else some s
  | none => some s

/-! ## Operation dispatch (contract.rs `execute_operation`) -/

/-- The `match operation` dispatch body of `execute_operation`. -/
def dispatchOperation (env : Env) (owner : String) (timestamp : Nat)
    (op : Operation) (s : GameStationState) : Option GameStationState :=
  match op with
  | .SubmitSnakeScore score gm => handle_submit_snake_score env owner score gm s
  | .SubmitTicTacToeResult won gm => handle_submit_tictactoe_result env owner won gm s
  | .SubmitSnakeLaddersResult won gm => handle_submit_snakeladders_result env owner won gm s
  | .SubmitUnoResult won gm => handle_submit_uno_result env owner won gm s
  | .UpdateProfile username avatar_id => handle_update_profile env owner username avatar_id s
  | .CreateRoom gt mp fee gm => handle_create_room env gt mp fee gm timestamp s
  | .JoinRoom room_id => handle_join_room owner room_id s
  | .LeaveRoom room_id => handle_leave_room owner room_id s
  | .MakeMove room_id move_data => handle_make_move owner room_id move_data timestamp s
  | .CloseRoom room_id => handle_close_room room_id s
  | .CreateTournament name gt mp => handle_create_tournament owner name gt mp timestamp s
  | .JoinTournament tid => handle_join_tournament owner tid s
  | .StartTournament tid => handle_start_tournament tid s
  | .AdvanceTournament tid mid w => handle_advance_tournament tid mid w s
  | .SendFriendRequest a => handle_send_friend_request owner a timestamp s
  | .AcceptFriendRequest a => handle_accept_friend_request owner a timestamp s
  | .RejectFriendRequest a => handle_reject_friend_request owner a s
  | .RemoveFriend a => handle_remove_friend owner a s
  | .CreateChallenge opp gt wager => handle_create_challenge owner opp gt wager timestamp s
  | .AcceptChallenge cid => handle_accept_challenge owner cid timestamp s
  | .DeclineChallenge cid => handle_decline_challenge cid s

/-- `is_operation_processed` (`unwrap_or(false)` on the map read). -/
def is_operation_processed (s : GameStationState) (op_id : String) : Bool :=
  (s.processed_operations op_id).getD false

/-- `mark_operation_processed`. -/
def mark_operation_processed (s : GameStationState) (op_id : String) : GameStationState :=
  { s with processed_operations := s.processed_operations.insert op_id true }

/-- `execute_operation`: derive the owner string from the signer, compute
the fingerprint, silently return when it is already recorded, otherwise
dispatch to the handler and record it. -/
def execute_operation (env : Env) (op : Operation) (s : GameStationState) :
    Option GameStationState :=
  let owner := env.signer.getD "anonymous"
  let op_id := generate_operation_id op owner env.wallClock
  if is_operation_processed s op_id then some s
  else (dispatchOperation env owner env.sysTime op s).map
    (fun s1 => mark_operation_processed s1 op_id)

/-! ## Message handling (contract.rs `execute_message`) -/

/-- The per-player profile/stats update of the `GameEndedWithStats` arm
(play count, win or loss, the game-specific experience award, then the
level-up loop). -/
def applyGameStats (game_type : GameType) (winner : Option String)
    (player_id : String) (score : Nat) (profile : UserProfile) : UserProfile :=
  let profile :=
    match game_type with
    | .TicTacToe =>
      let st := profile.tictactoe_stats
      let st := { st with games_played := (st.games_played + 1) % 2 ^ 32 }
      if winner = some player_id then
        { profile with
          tictactoe_stats := { st with wins := (st.wins + 1) % 2 ^ 32 }
          xp := (profile.xp + 50) % 2 ^ 64 }
      else
        { profile with
          tictactoe_stats := { st with losses := (st.losses + 1) % 2 ^ 32 }
          xp := (profile.xp + 10) % 2 ^ 64 }
    | .Snake =>
      let st := profile.snake_stats
      let st := { st with
        games_played := (st.games_played + 1) % 2 ^ 32
        total_score := (st.total_score + score) % 2 ^ 64 }
      let st := if st.high_score < score then { st with high_score := score } else st
      { profile with snake_stats := st, xp := (profile.xp + score / 10) % 2 ^ 64 }
    | .SnakeLadders =>
      let st := profile.snakeladders_stats
      let st := { st with games_played := (st.games_played + 1) % 2 ^ 32 }
      if winner = some player_id then
        { profile with
          snakeladders_stats := { st with wins := (st.wins + 1) % 2 ^ 32 }
          xp := (profile.xp + 40) % 2 ^ 64 }
      else
        { profile with
          snakeladders_stats := { st with losses := (st.losses + 1) % 2 ^ 32 }
          xp := (profile.xp + 10) % 2 ^ 64 }
    | .Uno =>
      let st := profile.uno_stats
      let st := { st with games_played := (st.games_played + 1) % 2 ^ 32 }
      if winner = some player_id then
        { profile with
          uno_stats := { st with wins := (st.wins + 1) % 2 ^ 32 }
          xp := (profile.xp + 60) % 2 ^ 64 }
      else
        { profile with
          uno_stats := { st with losses := (st.losses + 1) % 2 ^ 32 }
          xp := (profile.xp + 15) % 2 ^ 64 }
  { profile with
    level := (levelUp profile.level profile.xp).1
    xp := (levelUp profile.level profile.xp).2 }

/-- One iteration of the `for (player_id, score) in player_stats` loop of
the `GameEndedWithStats` arm. -/
def processPlayerStat (env : Env) (game_type : GameType) (winner : Option String)
    (s : GameStationState) (stat : String × Nat) : Option GameStationState := do
  let ps ← get_or_create_profile env s stat.1
  let profile := ps.1
  let s := ps.2
  let profile := applyGameStats game_type winner stat.1 stat.2 profile
  let s := { s with users := s.users.insert stat.1 profile }
  pure (updateLeaderboardState s (gameKey game_type) stat.1 profile.username stat.2)

/-- The `Message::GameMove` arm: mutate the mirror room through the rule
engine (no win check on this path). -/
def handle_msg_game_move (env : Env) (room_id player move_data : String)
    (s : GameStationState) : Option GameStationState :=
  match s.rooms room_id with
  | some room => do
    let room := { room with last_move_time := env.sysTime }
    let new_state ← moveNewState room move_data player
    pure { s with rooms :=
      s.rooms.insert room_id { room with current_state := new_state } }
  | none => some s

/-- The `Message::GameEnded` arm: mark the room finished and drop it from
the active list. -/
def handle_msg_game_ended (room_id : String) (winner : Option String)
    (s : GameStationState) : Option GameStationState :=
  match s.rooms room_id with
  | some room =>
    some (removeFromActiveRooms
      { s with rooms :=
          s.rooms.insert room_id { room with status := .Finished, winner := winner } }
      room_id)
  | none => some s

/-- The `Message::GameEndedWithStats` arm: fold the per-player stats
update over the player list, then clean up the shard directory entries. -/
def handle_msg_stats (env : Env) (room_id : String) (winner : Option String)
    (player_stats : List (String × Nat)) (game_type : GameType)
    (s : GameStationState) : Option GameStationState := do
  let s ← player_stats.foldlM (processPlayerStat env game_type winner) s
  let s := { s with room_chains := s.room_chains.remove room_id }
  let s := removeFromActiveRooms s room_id
  pure { s with total_games := (s.total_games + 1) % 2 ^ 64 }

/-- `execute_message` on the hub.  Arms that only log are identities. -/
def execute_message (env : Env) (msg : Message) (s : GameStationState) :
    Option GameStationState :=
  match msg with
  | .RoomCreated _ _ _ => some s
  | .PlayerJoinedRoom room_id player =>
    match s.rooms room_id with
    | some room =>
      if room.players.contains player then some s
      else
        let room := { room with players := room.players ++ [player] }
        let room := if room.max_players ≤ room.players.length % 256 then
            { room with status := .InProgress }
          else room
        some { s with rooms := s.rooms.insert room_id room }
    | none => some s
  | .GameMove room_id player move_data => handle_msg_game_move env room_id player move_data s
  | .GameEnded room_id winner => handle_msg_game_ended room_id winner s
  | .TournamentStarted _ => some s
  | .MatchCompleted _ _ _ => some s
  | .RoomChainReady _ _ _ _ => some s
  | .GameEndedWithStats room_id winner player_stats game_type _ =>
    handle_msg_stats env room_id winner player_stats game_type s
  | .InitializeRoom _ _ _ _ _ => some s
  | .PlayerJoiningRoom _ _ => some s
  | .ProcessMove _ _ _ => some s

/-! ## Test fixtures -/

/-- A runtime environment with an authenticated signer. -/
def testEnv : Env :=
  { signer := some "PLAYER01", sysTime := 1000, wallClock := 77, freshChainId := "chain-9" }

/-- A profile of player `"PLAYER01"` at the given level and experience. -/
def baseProfile (level xp : Nat) : UserProfile :=
  { address := "PLAYER01"
    username := "P1"
    avatar_id := 0
    level := level
    xp := xp
    snake_stats := GameStats.default
    tictactoe_stats := GameStats.default
    snakeladders_stats := GameStats.default
    uno_stats := GameStats.default
    joined_at := 0 }

/-- A freshly instantiated hub holding only that profile. -/
def stateWithProfile (level xp : Nat) : GameStationState :=
  { instantiateState "main" with
    users := StrMap.empty.insert "PLAYER01" (baseProfile level xp) }

/-! ## The level-up loop: specification relation and adequacy -/

/-- The while-loop semantics of the level-up loop, from the spec: repeat
while experience reaches `level × 1000`, subtracting that threshold and
incrementing the level (a u32 increment, hence the wrap). -/
inductive LevelRel : Nat → Nat → Nat → Nat → Prop where
  | done : ∀ {level xp : Nat}, ¬ level * 1000 ≤ xp → LevelRel level xp level xp
  | step : ∀ {level xp l x : Nat}, level * 1000 ≤ xp →
      LevelRel ((level + 1) % 2 ^ 32) (xp - level * 1000) l x → LevelRel level xp l x

/-- Any fuel beyond the loop's iteration count computes the loop exactly;
the measure `xp + (2 if level = 0 else 1)` strictly decreases with every
iteration. -/
theorem levelLoop_levelRel : ∀ (fuel level xp : Nat),
    xp + 2 ≤ fuel + min level 1 →
    LevelRel level xp (levelLoop fuel level xp).1 (levelLoop fuel level xp).2 := by
  intro fuel
  induction fuel with
  | zero =>
    intro level xp h
    exfalso
    omega
  | succ n ih =>
    intro level xp h
    rw [levelLoop]
    split
    case isTrue hg =>
      refine LevelRel.step hg (ih _ _ ?_)
      have h32 : (2 : Nat) ^ 32 = 4294967296 := by norm_num
      rw [h32]
      by_cases h0 : level = 0
      · subst h0
        omega
      · have h1000 : 1000 ≤ level * 1000 := by
          have h1 : 1 ≤ level := Nat.one_le_iff_ne_zero.mpr h0
          calc 1000 = 1 * 1000 := by ring
          _ ≤ level * 1000 := Nat.mul_le_mul_right 1000 h1
        omega
    case isFalse hg =>
      exact LevelRel.done hg

/-- The loop relation is deterministic. -/
theorem levelRel_det {level xp a b a2 b2 : Nat} (h1 : LevelRel level xp a b)
    (h2 : LevelRel level xp a2 b2) : a = a2 ∧ b = b2 := by
  induction h1 generalizing a2 b2 with
  | done hg =>
    cases h2 with
    | done _ => exact ⟨rfl, rfl⟩
    | step hg2 _ => exact absurd hg2 hg
  | step hg _ ih =>
    cases h2 with
    | done hg2 => exact absurd hg hg2
    | step _ h2x => exact ih h2x

/-- C2.  After any experience award the handlers run the while loop
`while xp ≥ level * 1000 { xp -= level * 1000; level += 1 }` (`levelUp`
computes exactly that loop, and nothing else does): multiple level-ups in
one update all apply.  The first worked example holds: level 1 /
experience 950 plus the 100-experience track-game win award ends at level
2 with experience 50.  The second does not: level 1 / experience 0 plus
2500 experience (a score-game submission of 25000) ends at level 2 with
experience 1500, because the second iteration requires 2000 experience —
see the counterexample. -/
theorem claim_C2 :
    (∀ level xp : Nat, LevelRel level xp (levelUp level xp).1 (levelUp level xp).2) ∧
    (∀ level xp a b : Nat, LevelRel level xp a b → levelUp level xp = (a, b)) ∧
    ((handle_submit_snakeladders_result testEnv "PLAYER01" true .Solo
        (stateWithProfile 1 950)).bind (fun s => s.users "PLAYER01")).map
        (fun p => (p.level, p.xp)) = some (2, 50) ∧
    ((handle_submit_snake_score testEnv "PLAYER01" 25000 .Solo
        (stateWithProfile 1 0)).bind (fun s => s.users "PLAYER01")).map
        (fun p => (p.level, p.xp)) = some (2, 1500) := by
  refine ⟨fun level xp => levelLoop_levelRel _ _ _ (by omega),
    fun level xp a b h => ?_, by decide, by decide⟩
  have h2 := levelLoop_levelRel (xp + 3) level xp (by omega)
  have := levelRel_det h2 h
  rw [levelUp, Prod.ext_iff]
  exact this

/-- C2, counterexample to the second worked example of the claim: the
profile at level 1 with experience 0 receiving 2500 experience ends at
level 2 with experience 1500, not at level 3 with experience 500. -/
theorem claim_C2_counterexample :
    ((handle_submit_snake_score testEnv "PLAYER01" 25000 .Solo
        (stateWithProfile 1 0)).bind (fun s => s.users "PLAYER01")).map
        (fun p => (p.level, p.xp)) = some (2, 1500) ∧
      (some ((2 : Nat), (1500 : Nat)) ≠ some ((3 : Nat), (500 : Nat))) := by
  exact ⟨by decide, by decide⟩

/-- C2, witness: the loop-characterization part applied at level 1,
experience 50 (no iteration fires). -/
theorem claim_C2_witness : levelUp 1 50 = (1, 50) :=
  claim_C2.2.1 1 50 1 50 (LevelRel.done (by norm_num))

/-! ## Tournament advancement -/

/-- One `player1` lands in the winners pool for every retained bracket. -/
theorem advanceBrackets_lengths (match_id : String) :
    ∀ bs : List TournamentBracket,
      (advanceBrackets match_id bs).2.length = (advanceBrackets match_id bs).1.length := by
  intro bs
  induction bs with
  | nil => simp [advanceBrackets]
  | cons b rest ih =>
    simp only [advanceBrackets]
    split
    · exact ih
    · simp [ih]

/-- A registration tournament over the listed participants (fixture). -/
def mkTournament (parts : List String) : Tournament :=
  { id := "tournament-0"
    name := "T"
    game_type := .TicTacToe
    creator := "A"
    participants := parts
    max_players := 8
    status := .Registration
    current_round := 0
    brackets := []
    created_at := 0 }

/-- A hub holding only that tournament (fixture). -/
def tstate (parts : List String) : GameStationState :=
  { instantiateState "main" with
    tournaments := StrMap.empty.insert "tournament-0" (mkTournament parts) }

/-- C3.  Starting with participants `[A,B,C,D]` does produce brackets
`[(A,B),(C,D)]`, and a 2-participant tournament completes in one round;
but advancing never reaches a second round: the advancement pass puts
exactly one name per retained bracket into the winners pool, so whenever
the bracket set empties the pool holds the reported winner alone, the
tournament completes, and `current_round` never changes — reporting
winner A for match `A-B` and then winner C for match `C-D` ends with
status `Completed`, round 1 and no brackets (see the counterexample). -/
theorem claim_C3 :
    (∀ s tid mid w t, s.tournaments tid = some t →
       ((handle_advance_tournament tid mid w s).bind
           (fun s2 => s2.tournaments tid)).map (fun t2 => t2.current_round) =
         some t.current_round) ∧
    (∀ s tid mid w t, s.tournaments tid = some t → t.status = .InProgress →
       (advanceBrackets mid t.brackets).1 = [] →
       ((handle_advance_tournament tid mid w s).bind
           (fun s2 => s2.tournaments tid)).map (fun t2 => (t2.status, t2.brackets)) =
         some (.Completed, [])) ∧
    ((handle_start_tournament "tournament-0" (tstate ["A", "B", "C", "D"])).bind
        (fun s => s.tournaments "tournament-0")).map
        (fun t => (t.status, t.current_round, t.brackets)) =
      some (.InProgress, 1, [⟨"A", "B"⟩, ⟨"C", "D"⟩]) ∧
    ((((handle_start_tournament "tournament-0" (tstate ["A", "B", "C", "D"])).bind
        (handle_advance_tournament "tournament-0" "A-B" "A")).bind
        (fun s => s.tournaments "tournament-0")).map
        (fun t => (t.status, t.current_round, t.brackets)) =
      some (.InProgress, 1, [⟨"C", "D"⟩])) ∧
    (((((handle_start_tournament "tournament-0" (tstate ["A", "B", "C", "D"])).bind
        (handle_advance_tournament "tournament-0" "A-B" "A")).bind
        (handle_advance_tournament "tournament-0" "C-D" "C")).bind
        (fun s => s.tournaments "tournament-0")).map
        (fun t => (t.status, t.current_round, t.brackets)) =
      some (.Completed, 1, [])) ∧
    ((((handle_start_tournament "tournament-0" (tstate ["A", "B"])).bind
        (handle_advance_tournament "tournament-0" "A-B" "A")).bind
        (fun s => s.tournaments "tournament-0")).map
        (fun t => (t.status, t.current_round, t.brackets)) =
      some (.Completed, 1, [])) := by
  have hlen := advanceBrackets_lengths
  refine ⟨?_, ?_, by decide, by decide, by decide, by decide⟩
  · intro s tid mid w t ht
    simp only [handle_advance_tournament, ht]
    by_cases hs : t.status = .InProgress
    · rw [if_pos hs]
      by_cases hk : (advanceBrackets mid t.brackets).1 = []
      · rw [if_pos hk]
        have hw : (w :: (advanceBrackets mid t.brackets).2).length = 1 := by
          simp [hlen mid t.brackets, hk]
        rw [if_pos hw]
        simp [StrMap.insert]
      · rw [if_neg hk]
        simp [StrMap.insert]
    · rw [if_neg hs]
      simp [ht]
  · intro s tid mid w t ht hs hk
    simp only [handle_advance_tournament, ht]
    rw [if_pos hs, if_pos hk]
    have hw : (w :: (advanceBrackets mid t.brackets).2).length = 1 := by
      simp [hlen mid t.brackets, hk]
    rw [if_pos hw]
    simp [StrMap.insert, hk]

/-- C3, counterexample: after the two match reports the tournament is
`Completed` in round 1 with no brackets — not in round 2 with a bracket
pairing C and A (in either order). -/
theorem claim_C3_counterexample :
    (((((handle_start_tournament "tournament-0" (tstate ["A", "B", "C", "D"])).bind
        (handle_advance_tournament "tournament-0" "A-B" "A")).bind
        (handle_advance_tournament "tournament-0" "C-D" "C")).bind
        (fun s => s.tournaments "tournament-0")).map
        (fun t => (t.status, t.current_round, t.brackets)) =
      some (.Completed, 1, [])) ∧
    (1 : Nat) ≠ 2 ∧
    ([] : List TournamentBracket) ≠ [⟨"C", "A"⟩] ∧
    ([] : List TournamentBracket) ≠ [⟨"A", "C"⟩] := by
  exact ⟨by decide, by decide, by decide, by decide⟩

/-- C3, witness: the round-stability part applied to the concrete
2-participant fixture. -/
theorem claim_C3_witness :
    ((handle_advance_tournament "tournament-0" "X" "W" (tstate ["A", "B"])).bind
        (fun s2 => s2.tournaments "tournament-0")).map (fun t2 => t2.current_round) =
      some 0 :=
  claim_C3.1 (tstate ["A", "B"]) "tournament-0" "X" "W" (mkTournament ["A", "B"])
    (by decide)

/-! ## Experience awards per game and per completion path -/

/-- C4.  The experience awards are fixed per game type and per path.  On
the game-ended stats path (`GameEndedWithStats`): grid game 50 win / 10
loss, score game `score / 10`, track game 40 win / 10 loss, card game 60
win / 15 loss.  On the direct submission path: grid game 50/10, track
game 100/20, score game `score / 10` — but the card game awards 80 on a
win (and 15 on a loss), so it is not the case that every completion path
awards the card game 60 on a win (see the counterexample). -/
theorem claim_C4 :
    (∀ (winner : Option String) (pid : String) (score : Nat) (p : UserProfile),
       ((applyGameStats .TicTacToe winner pid score p).level,
         (applyGameStats .TicTacToe winner pid score p).xp) =
         levelUp p.level ((p.xp + (if winner = some pid then 50 else 10)) % 2 ^ 64)) ∧
    (∀ (winner : Option String) (pid : String) (score : Nat) (p : UserProfile),
       ((applyGameStats .Snake winner pid score p).level,
         (applyGameStats .Snake winner pid score p).xp) =
         levelUp p.level ((p.xp + score / 10) % 2 ^ 64)) ∧
    (∀ (winner : Option String) (pid : String) (score : Nat) (p : UserProfile),
       ((applyGameStats .SnakeLadders winner pid score p).level,
         (applyGameStats .SnakeLadders winner pid score p).xp) =
         levelUp p.level ((p.xp + (if winner = some pid then 40 else 10)) % 2 ^ 64)) ∧
    (∀ (winner : Option String) (pid : String) (score : Nat) (p : UserProfile),
       ((applyGameStats .Uno winner pid score p).level,
         (applyGameStats .Uno winner pid score p).xp) =
         levelUp p.level ((p.xp + (if winner = some pid then 60 else 15)) % 2 ^ 64)) ∧
    (∀ env owner (won : Bool) mode s p, s.users owner = some p →
       mode = GameMode.Solo ∨ mode = GameMode.Multiplayer →
       (handle_submit_uno_result env owner won mode s).map
           (fun s2 => (s2.users owner).map (fun p2 => (p2.level, p2.xp))) =
         some (some (levelUp p.level ((p.xp + (if won then 80 else 15)) % 2 ^ 64)))) ∧
    (∀ env owner (won : Bool) mode s p, s.users owner = some p →
       mode = GameMode.Solo ∨ mode = GameMode.Multiplayer →
       (handle_submit_tictactoe_result env owner won mode s).map
           (fun s2 => (s2.users owner).map (fun p2 => (p2.level, p2.xp))) =
         some (some (levelUp p.level ((p.xp + (if won then 50 else 10)) % 2 ^ 64)))) ∧
    (∀ env owner (won : Bool) mode s p, s.users owner = some p →
       mode = GameMode.Solo ∨ mode = GameMode.Multiplayer →
       (handle_submit_snakeladders_result env owner won mode s).map
           (fun s2 => (s2.users owner).map (fun p2 => (p2.level, p2.xp))) =
         some (some (levelUp p.level ((p.xp + (if won then 100 else 20)) % 2 ^ 64)))) ∧
    (∀ env owner score mode s p, s.users owner = some p →
       mode = GameMode.Solo ∨ mode = GameMode.Multiplayer →
       (handle_submit_snake_score env owner score mode s).map
           (fun s2 => (s2.users owner).map (fun p2 => (p2.level, p2.xp))) =
         some (some (levelUp p.level ((p.xp + score / 10) % 2 ^ 64)))) := by
  refine ⟨?_, ?_, ?_, ?_, ?_, ?_, ?_, ?_⟩
  · intro winner pid score p
    by_cases hw : winner = some pid <;> simp [applyGameStats, hw]
  · intro winner pid score p
    simp [applyGameStats]
  · intro winner pid score p
    by_cases hw : winner = some pid <;> simp [applyGameStats, hw]
  · intro winner pid score p
    by_cases hw : winner = some pid <;> simp [applyGameStats, hw]
  · intro env owner won mode s p hu hm
    rcases hm with hm | hm <;> subst hm <;>
      simp [handle_submit_uno_result, get_or_create_profile, hu,
        updateLeaderboardState, StrMap.insert]
  · intro env owner won mode s p hu hm
    rcases hm with hm | hm <;> subst hm <;>
      simp [handle_submit_tictactoe_result, get_or_create_profile, hu,
        updateLeaderboardState, StrMap.insert]
  · intro env owner won mode s p hu hm
    rcases hm with hm | hm <;> subst hm <;>
      simp [handle_submit_snakeladders_result, get_or_create_profile, hu,
        updateLeaderboardState, StrMap.insert]
  · intro env owner score mode s p hu hm
    rcases hm with hm | hm <;> subst hm <;>
      simp [handle_submit_snake_score, get_or_create_profile, hu,
        updateLeaderboardState, StrMap.insert]

/-- C4, counterexample: a direct card-game win submission for a fresh
level-1 profile with no experience leaves 80 experience, not 60. -/
theorem claim_C4_counterexample :
    ((handle_submit_uno_result testEnv "PLAYER01" true .Solo
        (stateWithProfile 1 0)).bind (fun s => s.users "PLAYER01")).map
        (fun p => p.xp) = some 80 ∧ (80 : Nat) ≠ 60 := by
  exact ⟨by decide, by decide⟩

/-- C4, witness: the direct card-game part applied at a concrete state. -/
theorem claim_C4_witness :
    (handle_submit_uno_result testEnv "PLAYER01" true .Solo
        (stateWithProfile 1 0)).map
        (fun s2 => (s2.users "PLAYER01").map (fun p2 => (p2.level, p2.xp))) =
      some (some (levelUp 1 ((0 + 80) % 2 ^ 64))) :=
  claim_C4.2.2.2.2.1 testEnv "PLAYER01" true .Solo (stateWithProfile 1 0)
    (baseProfile 1 0) (by decide) (Or.inl rfl)

/-! ## Challenge accept/decline -/

/-- A pending challenge between two fixed players (fixture). -/
def testChallenge : Challenge :=
  { id := "challenge-0"
    challenger := "X1"
    opponent := "Y1"
    game_type := .Uno
    wager := 5
    status := .Pending
    created_at := 0
    expires_at := 100 }

/-- A hub holding only that challenge (fixture). -/
def chstate : GameStationState :=
  { instantiateState "main" with
    challenges := StrMap.empty.insert "challenge-0" testChallenge }

/-- C10.  Accepting a challenge changes it only when the caller is its
designated opponent (and it is `Pending` and the dispatch time is
strictly before `expires_at`); declining carries no identity check at
all: any `Pending` challenge — whoever its challenger and opponent are —
is set to `Declined` by a `DeclineChallenge` dispatch from any submitter
(the fourth part quantifies over the whole environment, hence over the
signer). -/
theorem claim_C10 :
    (∀ owner cid ts s ch, s.challenges cid = some ch → ch.opponent ≠ owner →
       handle_accept_challenge owner cid ts s = some s) ∧
    (∀ owner cid ts s ch, s.challenges cid = some ch →
       ch.opponent = owner → ch.status = .Pending → ts < ch.expires_at →
       (handle_accept_challenge owner cid ts s).bind (fun s2 => s2.challenges cid) =
         some { ch with status := .Accepted }) ∧
    (∀ cid s ch, s.challenges cid = some ch → ch.status = .Pending →
       (handle_decline_challenge cid s).bind (fun s2 => s2.challenges cid) =
         some { ch with status := .Declined }) ∧
    (∀ env cid s ch, s.challenges cid = some ch → ch.status = .Pending →
       is_operation_processed s
         (generate_operation_id (.DeclineChallenge cid)
           (env.signer.getD "anonymous") env.wallClock) = false →
       (execute_operation env (.DeclineChallenge cid) s).bind
           (fun s2 => s2.challenges cid) = some { ch with status := .Declined }) := by
  refine ⟨?_, ?_, ?_, ?_⟩
  · intro owner cid ts s ch hc hno
    simp [handle_accept_challenge, hc, hno]
  · intro owner cid ts s ch hc hop hp hts
    simp [handle_accept_challenge, hc, hop, hp, hts, StrMap.insert]
  · intro cid s ch hc hp
    simp [handle_decline_challenge, hc, hp, StrMap.insert]
  · intro env cid s ch hc hp hnp
    simp [execute_operation, hnp, dispatchOperation, handle_decline_challenge, hc, hp,
      mark_operation_processed, StrMap.insert]

/-- C10, witness: declining the fixture challenge (whose opponent is
`"Y1"`) through a dispatch by the unrelated signer `"PLAYER01"`. -/
theorem claim_C10_witness :
    (execute_operation testEnv (.DeclineChallenge "challenge-0") chstate).bind
        (fun s2 => s2.challenges "challenge-0") =
      some { testChallenge with status := .Declined } :=
  claim_C10.2.2.2 testEnv "challenge-0" chstate testChallenge (by decide) (by decide)
    (by decide)

/-! ## Idempotent operation dispatch -/

/-- The fingerprint `execute_operation` computes for a dispatch. -/
def opFingerprint (env : Env) (op : Operation) : String :=
  generate_operation_id op (env.signer.getD "anonymous") env.wallClock

/-- C1.  For every operation, submitter and hub state: when the computed
fingerprint is already recorded the dispatch is a silent no-op (the state
comes back unchanged, no error); otherwise the handler runs (aborting the
transaction if it aborts) and the fingerprint is recorded in the result —
hence re-dispatching with the same fingerprint reproduces the state of a
single dispatch exactly. -/
theorem claim_C1 : ∀ (env : Env) (op : Operation) (s : GameStationState),
    (s.processed_operations (opFingerprint env op) = some true →
       execute_operation env op s = some s) ∧
    (s.processed_operations (opFingerprint env op) ≠ some true →
       ((dispatchOperation env (env.signer.getD "anonymous") env.sysTime op s = none ∧
           execute_operation env op s = none) ∨
        (∃ s1, dispatchOperation env (env.signer.getD "anonymous") env.sysTime op s = some s1 ∧
           execute_operation env op s =
             some (mark_operation_processed s1 (opFingerprint env op)) ∧
           (mark_operation_processed s1 (opFingerprint env op)).processed_operations
             (opFingerprint env op) = some true))) ∧
    (∀ s2, execute_operation env op s = some s2 → execute_operation env op s2 = some s2) := by
  intro env op s
  have hins : ∀ s1 : GameStationState,
      (mark_operation_processed s1 (opFingerprint env op)).processed_operations
        (opFingerprint env op) = some true := by
    intro s1
    simp [mark_operation_processed, StrMap.insert]
  have hexec : ∀ st : GameStationState, execute_operation env op st =
      (if is_operation_processed st (opFingerprint env op) then some st
       else (dispatchOperation env (env.signer.getD "anonymous") env.sysTime op st).map
         (fun s1 => mark_operation_processed s1 (opFingerprint env op))) := fun _ => rfl
  refine ⟨?_, ?_, ?_⟩
  · intro h
    have hg : is_operation_processed s (opFingerprint env op) = true := by
      rw [is_operation_processed, h]
      rfl
    rw [hexec, if_pos hg]
  · intro h
    have hg : ¬ is_operation_processed s (opFingerprint env op) = true := by
      rw [is_operation_processed]
      rcases hv : s.processed_operations (opFingerprint env op) with _ | b
      · simp
      · cases b
        · simp
        · exact absurd hv h
    rw [hexec, if_neg hg]
    rcases hd : dispatchOperation env (env.signer.getD "anonymous") env.sysTime op s with
      _ | s1
    · exact Or.inl ⟨rfl, rfl⟩
    · exact Or.inr ⟨s1, rfl, rfl, hins s1⟩
  · intro s2 h2
    rw [hexec] at h2
    by_cases hg : is_operation_processed s (opFingerprint env op) = true
    · rw [if_pos hg] at h2
      cases h2
      rw [hexec, if_pos hg]
    · rw [if_neg hg] at h2
      rcases hd : dispatchOperation env (env.signer.getD "anonymous") env.sysTime op s with
        _ | s1
      · rw [hd] at h2
        simp at h2
      · rw [hd] at h2
        have h2x : some (mark_operation_processed s1 (opFingerprint env op)) = some s2 := h2
        injection h2x with h3
        rw [← h3]
        have hg2 : is_operation_processed
            (mark_operation_processed s1 (opFingerprint env op)) (opFingerprint env op) = true := by
          rw [is_operation_processed, hins s1]
          rfl
        rw [hexec, if_pos hg2]

/-- C1, witness: re-dispatching an operation whose fingerprint is already
recorded returns the state unchanged. -/
theorem claim_C1_witness :
    execute_operation testEnv (.DeclineChallenge "c9")
        (mark_operation_processed (instantiateState "main")
          (opFingerprint testEnv (.DeclineChallenge "c9"))) =
      some (mark_operation_processed (instantiateState "main")
        (opFingerprint testEnv (.DeclineChallenge "c9"))) :=
  (claim_C1 testEnv (.DeclineChallenge "c9") _).1
    (by simp [mark_operation_processed, StrMap.insert])

/-! ## SnakeLadders move characterization -/

/-- Position-map lookup after an insert at the same key. -/
theorem posLookup_posInsert_self (k : String) (v : Nat) :
    ∀ l : List (String × Nat), posLookup (posInsert k v l) k = some v := by
  intro l
  induction l with
  | nil => simp [posInsert, posLookup]
  | cons e rest ih =>
    by_cases he : e.1 = k
    · simp [posInsert, posLookup, he]
    · simpa [posInsert, posLookup, he] using ih

/-- Position-map lookup after an insert at a different key. -/
theorem posLookup_posInsert_other {q k : String} (hqk : q ≠ k) (v : Nat) :
    ∀ l : List (String × Nat), posLookup (posInsert k v l) q = posLookup l q := by
  intro l
  induction l with
  | nil => simp [posInsert, posLookup, Ne.symm hqk]
  | cons e rest ih =>
    by_cases he : e.1 = k
    · by_cases heq : e.1 = q
      · exact absurd (heq.symm.trans he) hqk
      · simp [posInsert, posLookup, he, heq, Ne.symm hqk]
    · by_cases heq : e.1 = q
      · simp [posInsert, posLookup, he, heq, hqk]
      · simpa [posInsert, posLookup, he, heq] using ih

/-- The relocate-then-clamp step of the track-game move: the sum of the
old position and the die, taken in u32 arithmetic, passed through the
lookup table, reverted to the old position when the result exceeds 100. -/
def slFinal (old dice : Nat) : Nat :=
  if 100 < snakeLaddersTable ((old + dice) % 2 ^ 32) then old
  else snakeLaddersTable ((old + dice) % 2 ^ 32)

/-- C8.  A die value outside 1–6 (including anything that fails to parse,
which parses as 0) leaves the state string unchanged; for a die in 1–6
the moving player ends at `slFinal old die` — `(old + die) % 2 ^ 32`
relocated by the fixed 19-square table exactly when it lands on a mapped
square, reverted to `old` when the outcome exceeds 100 — and every other
player keeps their parsed position.  The table relocates exactly the 19
listed squares, to the listed destinations.  (The claim as written omits
the u32 wrap of `old + die`; see the counterexample.) -/
theorem claim_C8 :
    (∀ cs md p : String,
       ((rustParseU32 md).getD 0 < 1 ∨ 6 < (rustParseU32 md).getD 0) →
       process_snakeladders_move cs md p = Sum.inl cs) ∧
    (∀ cs md p : String, 1 ≤ (rustParseU32 md).getD 0 → (rustParseU32 md).getD 0 ≤ 6 →
       ((process_snakeladders_move cs md p).getRight?).map (fun m => posLookup m p) =
         some (some (slFinal ((posLookup (parsePositions cs) p).getD 0)
           ((rustParseU32 md).getD 0)))) ∧
    (∀ cs md p q : String, q ≠ p →
       1 ≤ (rustParseU32 md).getD 0 → (rustParseU32 md).getD 0 ≤ 6 →
       ((process_snakeladders_move cs md p).getRight?).map (fun m => posLookup m q) =
         some (posLookup (parsePositions cs) q)) ∧
    (∀ n : Nat,
       n ∉ ([16, 47, 49, 56, 62, 64, 87, 93, 95, 98,
             1, 4, 9, 21, 28, 36, 51, 71, 80] : List Nat) →
       snakeLaddersTable n = n) ∧
    (snakeLaddersTable 16 = 6 ∧ snakeLaddersTable 47 = 26 ∧ snakeLaddersTable 49 = 11 ∧
     snakeLaddersTable 56 = 53 ∧ snakeLaddersTable 62 = 19 ∧ snakeLaddersTable 64 = 60 ∧
     snakeLaddersTable 87 = 24 ∧ snakeLaddersTable 93 = 73 ∧ snakeLaddersTable 95 = 75 ∧
     snakeLaddersTable 98 = 78 ∧ snakeLaddersTable 1 = 38 ∧ snakeLaddersTable 4 = 14 ∧
     snakeLaddersTable 9 = 31 ∧ snakeLaddersTable 21 = 42 ∧ snakeLaddersTable 28 = 84 ∧
     snakeLaddersTable 36 = 44 ∧ snakeLaddersTable 51 = 67 ∧ snakeLaddersTable 71 = 91 ∧
     snakeLaddersTable 80 = 100) := by
  refine ⟨?_, ?_, ?_, ?_, by decide⟩
  · intro cs md p h
    rw [process_snakeladders_move, if_pos h]
  · intro cs md p h1 h6
    rw [process_snakeladders_move, if_neg (by omega)]
    rw [Sum.getRight?, Option.map]
    rw [posLookup_posInsert_self]
    rfl
  · intro cs md p q hqp h1 h6
    rw [process_snakeladders_move, if_neg (by omega)]
    rw [Sum.getRight?, Option.map]
    rw [posLookup_posInsert_other hqp]
  · intro n hn
    simp only [List.mem_cons, List.not_mem_nil, or_false, not_or] at hn
    obtain ⟨a1, a2, a3, a4, a5, a6, a7, a8, a9, a10,
      a11, a12, a13, a14, a15, a16, a17, a18, a19⟩ := hn
    rw [snakeLaddersTable, if_neg a1, if_neg a2, if_neg a3, if_neg a4, if_neg a5,
      if_neg a6, if_neg a7, if_neg a8, if_neg a9, if_neg a10, if_neg a11, if_neg a12,
      if_neg a13, if_neg a14, if_neg a15, if_neg a16, if_neg a17, if_neg a18, if_neg a19]

/-- C8, counterexample: from recorded position 4294967295 a die of 6 puts
the player at `(4294967295 + 6) % 2 ^ 32 = 5` — neither at
`old + die = 4294967301` (which exceeds 100, so the claim as stated
predicts a revert to 4294967295) nor at the old position. -/
theorem claim_C8_counterexample :
    ((process_snakeladders_move "P1:4294967295" "6" "P1").getRight?).map
        (fun m => posLookup m "P1") = some (some 5) ∧
      (5 : Nat) ≠ 4294967295 + 6 ∧ (5 : Nat) ≠ 4294967295 := by
  exact ⟨by decide, by decide, by decide⟩

/-- C8, witness: the moving-player part applied to an empty state with a
die of 3 (position 0 + 3 = 3, unmapped, within the board). -/
theorem claim_C8_witness :
    ((process_snakeladders_move "" "3" "P1").getRight?).map
        (fun m => posLookup m "P1") =
      some (some (slFinal ((posLookup (parsePositions "") "P1").getD 0)
        ((rustParseU32 "3").getD 0))) :=
  claim_C8.2.1 "" "3" "P1" (by decide) (by decide)

/-! ## Leaderboard maintenance lemmas -/

/-- Descending order on entries (earlier score at least later score). -/
def scoreGE (a b : LeaderboardEntry) : Prop := b.score ≤ a.score

/-- Everything in an `insertDesc` is the new element or an old one. -/
theorem mem_insertDesc {x e : LeaderboardEntry} :
    ∀ {l : List LeaderboardEntry}, x ∈ insertDesc e l → x = e ∨ x ∈ l := by
  intro l
  induction l with
  | nil => simp [insertDesc]
  | cons h t ih =>
    simp only [insertDesc]
    split
    · intro hx
      rcases List.mem_cons.mp hx with hx | hx
      · exact Or.inr (by simp [hx])
      · rcases ih hx with hx | hx
        · exact Or.inl hx
        · exact Or.inr (List.mem_cons_of_mem _ hx)
    · intro hx
      rcases List.mem_cons.mp hx with hx | hx
      · exact Or.inl hx
      · exact Or.inr hx

/-- Stable descending insertion preserves descending order. -/
theorem pairwise_insertDesc (e : LeaderboardEntry) :
    ∀ l : List LeaderboardEntry, l.Pairwise scoreGE → (insertDesc e l).Pairwise scoreGE := by
  intro l
  induction l with
  | nil => intro _; simp [insertDesc, scoreGE]
  | cons h t ih =>
    intro hp
    rcases List.pairwise_cons.mp hp with ⟨hh, ht⟩
    simp only [insertDesc]
    split
    case isTrue hlt =>
      refine List.pairwise_cons.mpr ⟨?_, ih ht⟩
      intro x hx
      rcases mem_insertDesc hx with hx | hx
      · rw [hx]
        exact Nat.le_of_lt hlt
      · exact hh x hx
    case isFalse hge =>
      refine List.pairwise_cons.mpr ⟨?_, hp⟩
      intro x hx
      rcases List.mem_cons.mp hx with hx | hx
      · rw [hx]
        exact Nat.le_of_not_lt hge
      · exact Nat.le_trans (hh x hx) (Nat.le_of_not_lt hge)

/-- The Rust stable sort produces a descending list. -/
theorem pairwise_sortDesc : ∀ l : List LeaderboardEntry, (sortDesc l).Pairwise scoreGE := by
  intro l
  induction l with
  | nil => simp [sortDesc]
  | cons h t ih => exact pairwise_insertDesc h (sortDesc t) ih

/-- The rank-reassignment loop writes `position + 1` at each position. -/
theorem assignRanks_get : ∀ (l : List LeaderboardEntry) (i : Nat)
    (h : i < (assignRanks l).length),
    ((assignRanks l).get ⟨i, h⟩).rank = (i + 1) % 2 ^ 32 := by
  intro l i h
  simp only [assignRanks, List.get_eq_getElem, List.getElem_map, List.getElem_enum]

/-- The first matching entry is replaced when the new score is strictly
greater; everything else keeps its place. -/
theorem replaceOrInsert_found_lt :
    ∀ (lb : List LeaderboardEntry) (entry e : LeaderboardEntry),
      lb.find? (fun x => x.player_id = entry.player_id) = some e →
      e.score < entry.score →
      replaceOrInsert entry lb =
        lb.take (lb.findIdx (fun x => x.player_id = entry.player_id)) ++ entry ::
          lb.drop (lb.findIdx (fun x => x.player_id = entry.player_id) + 1) := by
  intro lb
  induction lb with
  | nil => intro entry e hf; simp [List.find?] at hf
  | cons h t ih =>
    intro entry e hf hlt
    by_cases hh : h.player_id = entry.player_id
    · have he : e = h := by
        simp [List.find?, hh] at hf
        exact hf.symm
      subst he
      simp [replaceOrInsert, hh, hlt, List.findIdx_cons]
    · rw [List.find?_cons_of_neg] at hf
      · simp only [replaceOrInsert, if_neg hh, List.findIdx_cons]
        rw [decide_eq_false hh]
        simp only [Bool.cond_false]
        rw [ih entry e hf hlt]
        simp
      · simp [hh]

/-- The first matching entry is kept when the new score is not strictly
greater. -/
theorem replaceOrInsert_found_ge :
    ∀ (lb : List LeaderboardEntry) (entry e : LeaderboardEntry),
      lb.find? (fun x => x.player_id = entry.player_id) = some e →
      ¬ e.score < entry.score →
      replaceOrInsert entry lb = lb := by
  intro lb
  induction lb with
  | nil => intro entry e hf; simp [List.find?] at hf
  | cons h t ih =>
    intro entry e hf hge
    by_cases hh : h.player_id = entry.player_id
    · have he : e = h := by
        simp [List.find?, hh] at hf
        exact hf.symm
      subst he
      simp [replaceOrInsert, hh, hge]
    · rw [List.find?_cons_of_neg] at hf
      · simp only [replaceOrInsert, if_neg hh]
        rw [ih entry e hf hge]
      · simp [hh]

/-- A player with no entry is appended. -/
theorem replaceOrInsert_not_found :
    ∀ (lb : List LeaderboardEntry) (entry : LeaderboardEntry),
      (∀ e ∈ lb, e.player_id ≠ entry.player_id) →
      replaceOrInsert entry lb = lb ++ [entry] := by
  intro lb
  induction lb with
  | nil => intro entry _; rfl
  | cons h t ih =>
    intro entry hno
    have hh : ¬ h.player_id = entry.player_id := hno h (List.mem_cons_self h t)
    simp only [replaceOrInsert, if_neg hh, List.cons_append]
    rw [ih entry (fun e he => hno e (List.mem_cons_of_mem _ he))]

/-- Rank reassignment keeps every score in place. -/
theorem assignRanks_score : ∀ (l : List LeaderboardEntry) (i : Nat)
    (h : i < (assignRanks l).length) (h2 : i < l.length),
    ((assignRanks l).get ⟨i, h⟩).score = (l.get ⟨i, h2⟩).score := by
  intro l i h h2
  simp only [assignRanks, List.get_eq_getElem, List.getElem_map, List.getElem_enum]

/-- A 100-entry leaderboard of distinct players with strictly descending
scores 1000 … 901 (fixture for the truncation example). -/
def base100 : List LeaderboardEntry :=
  (List.range 100).map
    (fun i => { player_id := "P" ++ toString i, player_name := "P" ++ toString i,
                score := 1000 - i, rank := i + 1 })

/-- C9.  `update_leaderboard` replaces a player's first entry only when
the new score is strictly greater, keeps it otherwise, appends a new
player, and produces a list sorted descending by score, ranked 1-based by
position, of at most 100 entries; scores [50, 80, 30] from three distinct
players come out ranked 1, 2, 3 as [80, 50, 30], and a 101st distinct
player holding the lowest score is dropped by the truncation. -/
theorem claim_C9 :
    (∀ (lb : List LeaderboardEntry) (pid name : String) (sc : Nat),
       (update_leaderboard lb pid name sc).Pairwise scoreGE) ∧
    (∀ (lb : List LeaderboardEntry) (pid name : String) (sc : Nat) (i : Nat)
       (h : i < (update_leaderboard lb pid name sc).length),
       ((update_leaderboard lb pid name sc).get ⟨i, h⟩).rank = i + 1) ∧
    (∀ (lb : List LeaderboardEntry) (pid name : String) (sc : Nat),
       (update_leaderboard lb pid name sc).length ≤ 100) ∧
    (∀ (lb : List LeaderboardEntry) (pid name : String) (sc : Nat)
       (e : LeaderboardEntry),
       lb.find? (fun x => x.player_id = pid) = some e → ¬ e.score < sc →
       update_leaderboard lb pid name sc = (assignRanks (sortDesc lb)).take 100) ∧
    (∀ (lb : List LeaderboardEntry) (entry e : LeaderboardEntry),
       lb.find? (fun x => x.player_id = entry.player_id) = some e →
       e.score < entry.score →
       replaceOrInsert entry lb =
         lb.take (lb.findIdx (fun x => x.player_id = entry.player_id)) ++ entry ::
           lb.drop (lb.findIdx (fun x => x.player_id = entry.player_id) + 1)) ∧
    (∀ (lb : List LeaderboardEntry) (entry : LeaderboardEntry),
       (∀ e ∈ lb, e.player_id ≠ entry.player_id) →
       replaceOrInsert entry lb = lb ++ [entry]) ∧
    (update_leaderboard (update_leaderboard (update_leaderboard [] "PA" "PA" 50)
        "PB" "PB" 80) "PC" "PC" 30 =
      [{ player_id := "PB", player_name := "PB", score := 80, rank := 1 },
       { player_id := "PA", player_name := "PA", score := 50, rank := 2 },
       { player_id := "PC", player_name := "PC", score := 30, rank := 3 }]) ∧
    (update_leaderboard base100 "PLOW" "PLOW" 1 = base100 ∧ base100.length = 100) := by
  have hget : ∀ (l2 : List LeaderboardEntry) (pid name : String) (sc : Nat),
      update_leaderboard l2 pid name sc =
        (assignRanks (sortDesc (replaceOrInsert
          { player_id := pid, player_name := name, score := sc, rank := 0 } l2))).take 100 :=
    fun _ _ _ _ => rfl
  refine ⟨?_, ?_, ?_, ?_, replaceOrInsert_found_lt, replaceOrInsert_not_found,
    by decide, by decide, by decide⟩
  · intro lb pid name sc
    rw [hget]
    refine List.Pairwise.sublist (List.take_sublist _ _) ?_
    rw [List.pairwise_iff_get]
    intro i j hij
    have hi2 : (i : Nat) < (sortDesc (replaceOrInsert
        { player_id := pid, player_name := name, score := sc, rank := 0 } lb)).length := by
      have := i.isLt
      simpa [assignRanks] using this
    have hj2 : (j : Nat) < (sortDesc (replaceOrInsert
        { player_id := pid, player_name := name, score := sc, rank := 0 } lb)).length := by
      have := j.isLt
      simpa [assignRanks] using this
    have hs := pairwise_sortDesc (replaceOrInsert
      { player_id := pid, player_name := name, score := sc, rank := 0 } lb)
    rw [List.pairwise_iff_get] at hs
    have hss := hs ⟨i, hi2⟩ ⟨j, hj2⟩ hij
    rw [scoreGE] at hss ⊢
    rw [assignRanks_score _ _ _ hi2, assignRanks_score _ _ _ hj2]
    exact hss
  · intro lb pid name sc i h
    have hlen : (update_leaderboard lb pid name sc).length =
        min 100 (assignRanks (sortDesc (replaceOrInsert
          { player_id := pid, player_name := name, score := sc, rank := 0 } lb))).length := by
      rw [hget, List.length_take]
    have h100 : i < 100 := by omega
    have h2 : i < (assignRanks (sortDesc (replaceOrInsert
        { player_id := pid, player_name := name, score := sc, rank := 0 } lb))).length := by
      omega
    show ((List.take 100 (assignRanks (sortDesc (replaceOrInsert
      { player_id := pid, player_name := name, score := sc, rank := 0 } lb)))).get
        ⟨i, h⟩).rank = i + 1
    rw [List.get_eq_getElem, List.getElem_take]
    have h3 := assignRanks_get (sortDesc (replaceOrInsert
      { player_id := pid, player_name := name, score := sc, rank := 0 } lb)) i h2
    rw [List.get_eq_getElem] at h3
    rw [h3]
    exact Nat.mod_eq_of_lt (by omega)
  · intro lb pid name sc
    rw [hget, List.length_take]
    omega
  · intro lb pid name sc e hf hge
    rw [hget, replaceOrInsert_found_ge lb _ e hf hge]

/-- C9, witness: the appended-when-absent part applied to the empty
leaderboard. -/
theorem claim_C9_witness :
    replaceOrInsert { player_id := "PA", player_name := "PA", score := 50, rank := 0 } [] =
      [] ++ [{ player_id := "PA", player_name := "PA", score := 50, rank := 0 }] :=
  claim_C9.2.2.2.2.2.1 []
    { player_id := "PA", player_name := "PA", score := 50, rank := 0 }
    (by intro e he; cases he)

/-! ## Well-formed 3×3 boards and win detection -/

/-- The serialized form of a 3×3 board: three rows of three characters
joined by newlines, exactly as both `process_tictactoe_move` copies write
it. -/
def mkBoard (a b c d e f g h i : Char) : String :=
  String.mk [a, b, c, '\n', d, e, f, '\n', g, h, i]

/-- A serialized board is never the empty string. -/
theorem mkBoard_ne_empty (a b c d e f g h i : Char) :
    mkBoard a b c d e f g h i ≠ "" := by
  intro hco
  have h2 : (mkBoard a b c d e f g h i).data = "".data := by rw [hco]
  have h3 : (mkBoard a b c d e f g h i).data =
      [a, b, c, '\n', d, e, f, '\n', g, h, i] := rfl
  have h4 : "".data = [] := rfl
  rw [h3, h4] at h2
  exact List.cons_ne_nil _ _ h2

/-- Parsing a serialized well-formed board recovers its three rows. -/
theorem rustLines_mkBoard (a b c d e f g h i : Char)
    (n1 : a ≠ '\n') (n2 : b ≠ '\n') (n3 : c ≠ '\n') (n4 : d ≠ '\n') (n5 : e ≠ '\n')
    (n6 : f ≠ '\n') (n7 : g ≠ '\n') (n8 : h ≠ '\n') (n9 : i ≠ '\n')
    (r3 : c ≠ '\r') (r6 : f ≠ '\r') :
    rustLines (mkBoard a b c d e f g h i) = [[a, b, c], [d, e, f], [g, h, i]] := by
  have hdata : (mkBoard a b c d e f g h i).data =
      [a, b, c, '\n', d, e, f, '\n', g, h, i] := rfl
  rw [rustLines, hdata]
  simp [splitChar, stripCR, n1, n2, n3, n4, n5, n6, n7, n8, n9, r3, r6]

/-- One line test of `tttLine` over in-range cells. -/
theorem tttLine_some (u v w : Char) :
    tttLine (some u) (some v) (some w) =
      some (decide (u ≠ '-' ∧ u = v ∧ v = w)) := by
  by_cases h1 : u = '-'
  · simp [tttLine, h1]
  · by_cases h2 : u = v
    · subst h2
      by_cases h3 : u = w
      · subst h3
        simp [tttLine, h1]
      · simp [tttLine, h1, h3]
    · simp [tttLine, h1, h2]

/-- The option bind of the do-notation evaluated at a present value. -/
theorem optSomeBind (x : Bool) (fn : Bool → Option Bool) :
    (Bind.bind (some x) fn) = fn x := rfl

/-- `pure` on options is `some`. -/
theorem optPure (x : Bool) : (pure x : Option Bool) = some x := rfl

/-- A chain link of the win check: testing one more line in front of an
already-decided remainder. -/
theorem iteSomeB (cond b : Bool) :
    (if cond = true then (some true : Option Bool) else some b) = some (cond || b) := by
  cases cond <;> simp

/-- The eight candidate lines of the grid — three rows, three columns and
the two diagonals — in the spec's terms. -/
def gridLines (a b c d e f g h i : Char) : List (List Char) :=
  [[a, b, c], [d, e, f], [g, h, i],
   [a, d, g], [b, e, h], [c, f, i],
   [a, e, i], [c, e, g]]

/-- The spec's win condition: some full row, some full column, or one of
the two diagonals holds three equal marks that are not the empty mark. -/
def gridWin (a b c d e f g h i : Char) : Prop :=
  ∃ l ∈ gridLines a b c d e f g h i, ∃ m, m ≠ '-' ∧ l = [m, m, m]

/-- The spec's win condition as an explicit eight-way disjunction. -/
theorem gridWin_iff (a b c d e f g h i : Char) :
    gridWin a b c d e f g h i ↔
      ((a ≠ '-' ∧ a = b ∧ b = c) ∨ (d ≠ '-' ∧ d = e ∧ e = f) ∨
       (g ≠ '-' ∧ g = h ∧ h = i) ∨ (a ≠ '-' ∧ a = d ∧ d = g) ∨
       (b ≠ '-' ∧ b = e ∧ e = h) ∨ (c ≠ '-' ∧ c = f ∧ f = i) ∨
       (a ≠ '-' ∧ a = e ∧ e = i) ∨ (c ≠ '-' ∧ c = e ∧ e = g)) := by
  constructor
  · rintro ⟨l, hl, m, hm, rfl⟩
    simp only [gridLines, List.mem_cons, List.not_mem_nil, or_false] at hl
    rcases hl with h | h | h | h | h | h | h | h <;>
      simp only [List.cons.injEq, and_true] at h <;>
      obtain ⟨e1, e2, e3⟩ := h <;> subst e1 <;> subst e2 <;> subst e3
    · exact Or.inl ⟨hm, rfl, rfl⟩
    · exact Or.inr (Or.inl ⟨hm, rfl, rfl⟩)
    · exact Or.inr (Or.inr (Or.inl ⟨hm, rfl, rfl⟩))
    · exact Or.inr (Or.inr (Or.inr (Or.inl ⟨hm, rfl, rfl⟩)))
    · exact Or.inr (Or.inr (Or.inr (Or.inr (Or.inl ⟨hm, rfl, rfl⟩))))
    · exact Or.inr (Or.inr (Or.inr (Or.inr (Or.inr (Or.inl ⟨hm, rfl, rfl⟩)))))
    · exact Or.inr (Or.inr (Or.inr (Or.inr (Or.inr (Or.inr (Or.inl ⟨hm, rfl, rfl⟩))))))
    · exact Or.inr (Or.inr (Or.inr (Or.inr (Or.inr (Or.inr (Or.inr ⟨hm, rfl, rfl⟩))))))
  · rintro (⟨h1, h2, h3⟩ | ⟨h1, h2, h3⟩ | ⟨h1, h2, h3⟩ | ⟨h1, h2, h3⟩ |
      ⟨h1, h2, h3⟩ | ⟨h1, h2, h3⟩ | ⟨h1, h2, h3⟩ | ⟨h1, h2, h3⟩) <;>
      subst h2 <;> subst h3
    · exact ⟨[a, a, a], by simp [gridLines], a, h1, rfl⟩
    · exact ⟨[d, d, d], by simp [gridLines], d, h1, rfl⟩
    · exact ⟨[g, g, g], by simp [gridLines], g, h1, rfl⟩
    · exact ⟨[a, a, a], by simp [gridLines], a, h1, rfl⟩
    · exact ⟨[b, b, b], by simp [gridLines], b, h1, rfl⟩
    · exact ⟨[c, c, c], by simp [gridLines], c, h1, rfl⟩
    · exact ⟨[a, a, a], by simp [gridLines], a, h1, rfl⟩
    · exact ⟨[c, c, c], by simp [gridLines], c, h1, rfl⟩

/-- The hub win check over a well-formed board, in decided form. -/
theorem hub_check_mkBoard (a b c d e f g h i : Char)
    (n1 : a ≠ '\n') (n2 : b ≠ '\n') (n3 : c ≠ '\n') (n4 : d ≠ '\n') (n5 : e ≠ '\n')
    (n6 : f ≠ '\n') (n7 : g ≠ '\n') (n8 : h ≠ '\n') (n9 : i ≠ '\n')
    (r3 : c ≠ '\r') (r6 : f ≠ '\r') :
    Hub.check_tictactoe_win (mkBoard a b c d e f g h i) =
      some (decide ((a ≠ '-' ∧ a = b ∧ b = c) ∨ (d ≠ '-' ∧ d = e ∧ e = f) ∨
        (g ≠ '-' ∧ g = h ∧ h = i) ∨ (a ≠ '-' ∧ a = d ∧ d = g) ∨
        (b ≠ '-' ∧ b = e ∧ e = h) ∨ (c ≠ '-' ∧ c = f ∧ f = i) ∨
        (a ≠ '-' ∧ a = e ∧ e = i) ∨ (c ≠ '-' ∧ c = e ∧ e = g))) := by
  rw [Hub.check_tictactoe_win, if_neg (mkBoard_ne_empty a b c d e f g h i),
    rustLines_mkBoard a b c d e f g h i n1 n2 n3 n4 n5 n6 n7 n8 n9 r3 r6]
  simp only [tttRowsHub, tttColsDiags, List.get?_cons_zero, List.get?_cons_succ,
    tttLine_some, optSomeBind, optPure, iteSomeB, Bool.or_false, Bool.decide_or]
  simp [Bool.or_assoc]

/-- The shard win check over a well-formed board, in decided form (its
extra `row.len() == 3` guards are satisfied). -/
theorem room_check_mkBoard (a b c d e f g h i : Char)
    (n1 : a ≠ '\n') (n2 : b ≠ '\n') (n3 : c ≠ '\n') (n4 : d ≠ '\n') (n5 : e ≠ '\n')
    (n6 : f ≠ '\n') (n7 : g ≠ '\n') (n8 : h ≠ '\n') (n9 : i ≠ '\n')
    (r3 : c ≠ '\r') (r6 : f ≠ '\r') :
    RoomChain.check_tictactoe_win (mkBoard a b c d e f g h i) =
      some (decide ((a ≠ '-' ∧ a = b ∧ b = c) ∨ (d ≠ '-' ∧ d = e ∧ e = f) ∨
        (g ≠ '-' ∧ g = h ∧ h = i) ∨ (a ≠ '-' ∧ a = d ∧ d = g) ∨
        (b ≠ '-' ∧ b = e ∧ e = h) ∨ (c ≠ '-' ∧ c = f ∧ f = i) ∨
        (a ≠ '-' ∧ a = e ∧ e = i) ∨ (c ≠ '-' ∧ c = e ∧ e = g))) := by
  have hrows : ∀ r1 r2 r3 r4 r5 r6 r7 r8 r9 : Char,
      tttRowsRoom [[r1, r2, r3], [r4, r5, r6], [r7, r8, r9]] =
        tttRowsHub [[r1, r2, r3], [r4, r5, r6], [r7, r8, r9]] := by
    intro r1 r2 r3 r4 r5 r6 r7 r8 r9
    simp [tttRowsRoom, tttRowsHub]
  rw [RoomChain.check_tictactoe_win, if_neg (mkBoard_ne_empty a b c d e f g h i),
    rustLines_mkBoard a b c d e f g h i n1 n2 n3 n4 n5 n6 n7 n8 n9 r3 r6]
  simp only [hrows, tttRowsHub, tttColsDiags, List.get?_cons_zero, List.get?_cons_succ,
    tttLine_some, optSomeBind, optPure, iteSomeB, Bool.or_false, Bool.decide_or]
  simp [Bool.or_assoc]

/-- C7.  For every well-formed 3×3 board (nine marks free of newline and
carriage-return characters), both copies of `check_tictactoe_win` return
true exactly when some full row, some full column, or one of the two
diagonals holds three equal non-`'-'` marks, and false exactly when no
such line exists. -/
theorem claim_C7 (a b c d e f g h i : Char)
    (hwf : ∀ x ∈ [a, b, c, d, e, f, g, h, i], x ≠ '\n' ∧ x ≠ '\r') :
    (Hub.check_tictactoe_win (mkBoard a b c d e f g h i) = some true ↔
       gridWin a b c d e f g h i) ∧
    (Hub.check_tictactoe_win (mkBoard a b c d e f g h i) = some false ↔
       ¬ gridWin a b c d e f g h i) ∧
    (RoomChain.check_tictactoe_win (mkBoard a b c d e f g h i) = some true ↔
       gridWin a b c d e f g h i) ∧
    (RoomChain.check_tictactoe_win (mkBoard a b c d e f g h i) = some false ↔
       ¬ gridWin a b c d e f g h i) := by
  simp only [List.mem_cons, List.not_mem_nil, or_false, forall_eq_or_imp, forall_eq] at hwf
  obtain ⟨⟨w1, _⟩, ⟨w2, _⟩, ⟨w3, wr3⟩, ⟨w4, _⟩, ⟨w5, _⟩, ⟨w6, wr6⟩, ⟨w7, _⟩, ⟨w8, _⟩,
    w9, _⟩ := hwf
  rw [hub_check_mkBoard a b c d e f g h i w1 w2 w3 w4 w5 w6 w7 w8 w9 wr3 wr6,
    room_check_mkBoard a b c d e f g h i w1 w2 w3 w4 w5 w6 w7 w8 w9 wr3 wr6,
    gridWin_iff]
  refine ⟨?_, ?_, ?_, ?_⟩ <;> simp [decide_eq_true_iff]

/-- C7, witness: a board whose top row holds three `X` marks wins. -/
theorem claim_C7_witness :
    Hub.check_tictactoe_win (mkBoard 'X' 'X' 'X' 'O' 'O' '-' '-' '-' '-') = some true :=
  (claim_C7 'X' 'X' 'X' 'O' 'O' '-' '-' '-' '-' (by decide)).1.mpr
    ⟨['X', 'X', 'X'], by simp [gridLines], 'X', by decide, rfl⟩

/-! ## Move validation of the grid game -/

/-- C6.  Both copies of the grid-game `apply_move` return the state
unchanged (without panicking) when the move does not split into exactly
two comma-separated fields, and both copies also when the zero-based
coordinates land outside the 3×3 board (for the hub that covers its
`unwrap_or(0)`-parsed coordinates; for the shard, successfully parsed
out-of-range coordinates); the shard copy additionally returns the state
unchanged when either field fails to parse as an integer — the hub copy
instead parses such a field as 0 (`unwrap_or(0)`), which is what the
counterexample exhibits.  On a well-formed board, a move addressed to an
already-occupied cell (with a non-empty player list, whose absence would
panic) returns the board serialized unchanged, so the occupied mark is
never overwritten. -/
theorem claim_C6 :
    (∀ (state move player : String) (players : List String),
       (splitChar ',' move.data).length ≠ 2 →
       Hub.process_tictactoe_move state move player players = some state ∧
       RoomChain.process_tictactoe_move state move player players = some state) ∧
    (∀ (state move player : String) (players : List String) (p0 p1 : List Char),
       splitChar ',' move.data = [p0, p1] →
       (3 ≤ (rustParseUsize (String.mk p0)).getD 0 ∨
         3 ≤ (rustParseUsize (String.mk p1)).getD 0) →
       Hub.process_tictactoe_move state move player players = some state) ∧
    (∀ (state move player : String) (players : List String) (p0 p1 : List Char)
       (x y : Nat),
       splitChar ',' move.data = [p0, p1] →
       rustParseUsize (String.mk p0) = some x →
       rustParseUsize (String.mk p1) = some y →
       3 ≤ x ∨ 3 ≤ y →
       RoomChain.process_tictactoe_move state move player players = some state) ∧
    (∀ (state move player : String) (players : List String) (p0 p1 : List Char),
       splitChar ',' move.data = [p0, p1] →
       (rustParseUsize (String.mk p0) = none ∨ rustParseUsize (String.mk p1) = none) →
       RoomChain.process_tictactoe_move state move player players = some state) ∧
    (∀ (a b c d e f g h i : Char) (move player : String) (players : List String)
       (p0 p1 : List Char) (x y : Nat) (q : String) (ch : Char),
       (∀ u ∈ [a, b, c, d, e, f, g, h, i], u ≠ '\n' ∧ u ≠ '\r') →
       splitChar ',' move.data = [p0, p1] →
       rustParseUsize (String.mk p0) = some x →
       rustParseUsize (String.mk p1) = some y →
       x < 3 → y < 3 →
       players.head? = some q →
       (([[a, b, c], [d, e, f], [g, h, i]] : List (List Char)).get? y).bind
         (fun r => r.get? x) = some ch →
       ch ≠ '-' →
       Hub.process_tictactoe_move (mkBoard a b c d e f g h i) move player players =
         some (mkBoard a b c d e f g h i) ∧
       RoomChain.process_tictactoe_move (mkBoard a b c d e f g h i) move player players =
         some (mkBoard a b c d e f g h i)) := by
  refine ⟨?_, ?_, ?_, ?_, ?_⟩
  · intro state move player players hlen
    rcases hsp : splitChar ',' move.data with _ | ⟨p0, _ | ⟨p1, _ | ⟨p2, rest⟩⟩⟩
    · simp [Hub.process_tictactoe_move, RoomChain.process_tictactoe_move, hsp]
    · simp [Hub.process_tictactoe_move, RoomChain.process_tictactoe_move, hsp]
    · rw [hsp] at hlen
      simp at hlen
    · simp [Hub.process_tictactoe_move, RoomChain.process_tictactoe_move, hsp]
  · intro state move player players p0 p1 hsp hxy
    simp only [Hub.process_tictactoe_move, hsp]
    rw [if_pos hxy]
  · intro state move player players p0 p1 x y hsp hp0 hp1 hxy
    simp only [RoomChain.process_tictactoe_move, hsp, hp0, hp1]
    rw [if_pos hxy]
  · intro state move player players p0 p1 hsp hpf
    simp only [RoomChain.process_tictactoe_move, hsp]
    rcases hp0 : rustParseUsize (String.mk p0) with _ | x
    · rfl
    · rcases hp1 : rustParseUsize (String.mk p1) with _ | y
      · rfl
      · rcases hpf with hpf | hpf
        · exact absurd hp0 (by rw [hpf]; simp)
        · exact absurd hp1 (by rw [hpf]; simp)
  · intro a b c d e f g h i move player players p0 p1 x y q ch hwf hsp hp0 hp1 hx3 hy3
      hq hcell hocc
    simp only [List.mem_cons, List.not_mem_nil, or_false, forall_eq_or_imp,
      forall_eq] at hwf
    obtain ⟨⟨w1, _⟩, ⟨w2, _⟩, ⟨w3, wr3⟩, ⟨w4, _⟩, ⟨w5, _⟩, ⟨w6, wr6⟩, ⟨w7, _⟩, ⟨w8, _⟩,
      w9, _⟩ := hwf
    have hser : String.mk (List.intercalate ['\n'] [[a, b, c], [d, e, f], [g, h, i]]) =
        mkBoard a b c d e f g h i := rfl
    constructor
    · simp only [Hub.process_tictactoe_move, hsp, hp0, hp1, Option.getD_some]
      rw [if_neg (by omega), if_neg (mkBoard_ne_empty a b c d e f g h i),
        rustLines_mkBoard a b c d e f g h i w1 w2 w3 w4 w5 w6 w7 w8 w9 wr3 wr6, hq]
      interval_cases x <;> interval_cases y <;> simp_all
    · simp only [RoomChain.process_tictactoe_move, hsp, hp0, hp1]
      rw [if_neg (by omega), if_neg (mkBoard_ne_empty a b c d e f g h i),
        rustLines_mkBoard a b c d e f g h i w1 w2 w3 w4 w5 w6 w7 w8 w9 wr3 wr6, hq]
      interval_cases x <;> interval_cases y <;> simp_all

/-- C6, counterexample: on the hub copy the malformed move `"abc,def"`
(two comma-separated fields that are not integers) is not a no-op — both
fields parse as 0 via `unwrap_or(0)` and the move is applied at cell
(0, 0) of the empty board. -/
theorem claim_C6_counterexample :
    Hub.process_tictactoe_move "" "abc,def" "P" ["P"] = some "X--\n---\n---" ∧
      some "X--\n---\n---" ≠ (some "" : Option String) := by
  exact ⟨by decide, by decide⟩

/-- C6, witness: a one-field move is a no-op on both copies. -/
theorem claim_C6_witness :
    Hub.process_tictactoe_move "" "xx" "P" [] = some "" ∧
      RoomChain.process_tictactoe_move "" "xx" "P" [] = some "" :=
  claim_C6.1 "" "xx" "P" [] (by decide)

/-! ## Room capacity and status monotonicity -/

/-- The position of a status along Waiting → InProgress → Finished. -/
def statusIdx : RoomStatus → Nat
  | .Waiting => 0
  | .InProgress => 1
  | .Finished => 2

/-- Every stored room respects its capacity (and the u8 range of
`max_players`). -/
def roomsWF (s : GameStationState) : Prop :=
  ∀ id r, s.rooms id = some r →
    r.players.length ≤ r.max_players ∧ r.max_players ≤ 255

/-- No stored room moves backwards along Waiting → InProgress →
Finished between two states. -/
def statusMono (s s2 : GameStationState) : Prop :=
  ∀ id r r2, s.rooms id = some r → s2.rooms id = some r2 →
    statusIdx r.status ≤ statusIdx r2.status

/-- A status index never exceeds 2. -/
theorem statusIdx_le_two (st : RoomStatus) : statusIdx st ≤ 2 := by
  cases st <;> simp [statusIdx]

/-- A step that leaves the room map untouched preserves capacity and
moves no status. -/
theorem preserve_of_rooms_eq {s s2 : GameStationState} (h : s2.rooms = s.rooms) :
    (roomsWF s → roomsWF s2) ∧ statusMono s s2 := by
  constructor
  · intro hw id r hr
    rw [h] at hr
    exact hw id r hr
  · intro id r r2 hr hr2
    rw [h, hr] at hr2
    cases hr2
    exact le_refl _

/-- Transfer the two room properties along an equality of room maps. -/
theorem preserve_transfer {s s1 s2 : GameStationState} (h : s2.rooms = s1.rooms)
    (hp : (roomsWF s → roomsWF s1) ∧ statusMono s s1) :
    (roomsWF s → roomsWF s2) ∧ statusMono s s2 := by
  refine ⟨fun hw id r hr => hp.1 hw id r (by rw [h] at hr; exact hr), ?_⟩
  intro id r r2 hr hr2
  rw [h] at hr2
  exact hp.2 id r r2 hr hr2

/-- Monadic bind on a missing option. -/
theorem optBindNone {α β : Type} (fn : α → Option β) :
    (Bind.bind (none : Option α) fn) = none := rfl

/-- Monadic bind on a present option. -/
theorem optBindSome {α β : Type} (x : α) (fn : α → Option β) :
    (Bind.bind (some x) fn) = fn x := rfl

/-- `get_or_create_profile` never touches the room map. -/
theorem get_or_create_profile_rooms {env : Env} {s : GameStationState} {a : String}
    {p : UserProfile} {s1 : GameStationState}
    (h : get_or_create_profile env s a = some (p, s1)) : s1.rooms = s.rooms := by
  rw [get_or_create_profile] at h
  rcases hu : s.users a with _ | profile <;> rw [hu] at h
  · by_cases hlen : a.data.length < 8
    · rw [if_pos hlen] at h
      simp at h
    · rw [if_neg hlen] at h
      cases h
      rfl
  · cases h
    rfl

/-- `handle_submit_snake_score` never touches the room map. -/
theorem handle_submit_snake_score_rooms {env : Env} {owner : String} {score : Nat}
    {gm : GameMode} {s s1 : GameStationState}
    (h : handle_submit_snake_score env owner score gm s = some s1) :
    s1.rooms = s.rooms := by
  rw [handle_submit_snake_score] at h
  rcases hg : get_or_create_profile env s owner with _ | ⟨p, s2⟩ <;>
    simp only [hg, optBindNone, optBindSome] at h
  · exact Option.noConfusion h
  · have hr2 : s2.rooms = s.rooms := get_or_create_profile_rooms hg
    split at h
    all_goals cases h
    all_goals exact hr2

/-- `handle_submit_tictactoe_result` never touches the room map. -/
theorem handle_submit_tictactoe_result_rooms {env : Env} {owner : String} {won : Bool}
    {gm : GameMode} {s s1 : GameStationState}
    (h : handle_submit_tictactoe_result env owner won gm s = some s1) :
    s1.rooms = s.rooms := by
  rw [handle_submit_tictactoe_result] at h
  rcases hg : get_or_create_profile env s owner with _ | ⟨p, s2⟩ <;>
    simp only [hg, optBindNone, optBindSome] at h
  · exact Option.noConfusion h
  · have hr2 : s2.rooms = s.rooms := get_or_create_profile_rooms hg
    split at h
    all_goals cases h
    all_goals exact hr2

/-- `handle_submit_snakeladders_result` never touches the room map. -/
theorem handle_submit_snakeladders_result_rooms {env : Env} {owner : String}
    {won : Bool} {gm : GameMode} {s s1 : GameStationState}
    (h : handle_submit_snakeladders_result env owner won gm s = some s1) :
    s1.rooms = s.rooms := by
  rw [handle_submit_snakeladders_result] at h
  rcases hg : get_or_create_profile env s owner with _ | ⟨p, s2⟩ <;>
    simp only [hg, optBindNone, optBindSome] at h
  · exact Option.noConfusion h
  · have hr2 : s2.rooms = s.rooms := get_or_create_profile_rooms hg
    split at h
    all_goals cases h
    all_goals exact hr2

/-- `handle_submit_uno_result` never touches the room map. -/
theorem handle_submit_uno_result_rooms {env : Env} {owner : String} {won : Bool}
    {gm : GameMode} {s s1 : GameStationState}
    (h : handle_submit_uno_result env owner won gm s = some s1) :
    s1.rooms = s.rooms := by
  rw [handle_submit_uno_result] at h
  rcases hg : get_or_create_profile env s owner with _ | ⟨p, s2⟩ <;>
    simp only [hg, optBindNone, optBindSome] at h
  · exact Option.noConfusion h
  · have hr2 : s2.rooms = s.rooms := get_or_create_profile_rooms hg
    split at h
    all_goals cases h
    all_goals exact hr2

/-- `handle_update_profile` never touches the room map. -/
theorem handle_update_profile_rooms {env : Env} {owner username : String}
    {avatar_id : Nat} {s s1 : GameStationState}
    (h : handle_update_profile env owner username avatar_id s = some s1) :
    s1.rooms = s.rooms := by
  rw [handle_update_profile] at h
  rcases hg : get_or_create_profile env s owner with _ | ⟨p, s2⟩ <;>
    simp only [hg, optBindNone, optBindSome] at h
  · exact Option.noConfusion h
  · have hr2 : s2.rooms = s.rooms := get_or_create_profile_rooms hg
    cases h
    exact hr2

/-- One stats-loop iteration never touches the room map. -/
theorem processPlayerStat_rooms {env : Env} {gt : GameType} {w : Option String}
    {s s1 : GameStationState} {stat : String × Nat}
    (h : processPlayerStat env gt w s stat = some s1) : s1.rooms = s.rooms := by
  rw [processPlayerStat] at h
  rcases hg : get_or_create_profile env s stat.1 with _ | ⟨p, s2⟩ <;>
    simp only [hg, optBindNone, optBindSome] at h
  · exact Option.noConfusion h
  · have hr2 : s2.rooms = s.rooms := get_or_create_profile_rooms hg
    cases h
    exact hr2

/-- The whole stats loop never touches the room map. -/
theorem foldl_stats_rooms {env : Env} {gt : GameType} {w : Option String} :
    ∀ (l : List (String × Nat)) (s s1 : GameStationState),
      List.foldlM (processPlayerStat env gt w) s l = some s1 → s1.rooms = s.rooms := by
  intro l
  induction l with
  | nil =>
    intro s s1 h
    cases h
    rfl
  | cons x t ih =>
    intro s s1 h
    rw [List.foldlM_cons] at h
    rcases hp : processPlayerStat env gt w s x with _ | s2 <;>
      simp only [hp, optBindNone, optBindSome] at h
    · exact Option.noConfusion h
    · rw [ih s2 s1 h]
      exact processPlayerStat_rooms hp

/-- A step that rewrites one room respects capacity and monotonicity as
soon as the written room does. -/
theorem preserve_insert {s s1 : GameStationState} {rid : String} {room : GameRoom}
    (hrooms : s1.rooms = s.rooms.insert rid room)
    (hcap : roomsWF s → room.players.length ≤ room.max_players ∧ room.max_players ≤ 255)
    (hstat : ∀ r, s.rooms rid = some r → statusIdx r.status ≤ statusIdx room.status) :
    (roomsWF s → roomsWF s1) ∧ statusMono s s1 := by
  constructor
  · intro hw id r hr
    rw [hrooms] at hr
    unfold StrMap.insert at hr
    by_cases hid : id = rid
    · rw [if_pos hid] at hr
      cases hr
      exact hcap hw
    · rw [if_neg hid] at hr
      exact hw id r hr
  · intro id r r2 hr hr2
    rw [hrooms] at hr2
    unfold StrMap.insert at hr2
    by_cases hid : id = rid
    · rw [if_pos hid] at hr2
      cases hr2
      subst hid
      exact hstat r hr
    · rw [if_neg hid] at hr2
      rw [hr] at hr2
      cases hr2
      exact le_refl _

/-- A step that deletes one room respects capacity and monotonicity. -/
theorem preserve_remove {s s1 : GameStationState} {rid : String}
    (hrooms : s1.rooms = s.rooms.remove rid) :
    (roomsWF s → roomsWF s1) ∧ statusMono s s1 := by
  constructor
  · intro hw id r hr
    rw [hrooms] at hr
    unfold StrMap.remove at hr
    by_cases hid : id = rid
    · rw [if_pos hid] at hr
      exact Option.noConfusion hr
    · rw [if_neg hid] at hr
      exact hw id r hr
  · intro id r r2 hr hr2
    rw [hrooms] at hr2
    unfold StrMap.remove at hr2
    by_cases hid : id = rid
    · rw [if_pos hid] at hr2
      exact Option.noConfusion hr2
    · rw [if_neg hid] at hr2
      rw [hr] at hr2
      cases hr2
      exact le_refl _

/-- Inverting a successful monadic bind on options. -/
theorem optBindEq {α β : Type} {x : Option α} {fn : α → Option β} {b : β}
    (h : Bind.bind x fn = some b) : ∃ a, x = some a ∧ fn a = some b := by
  cases x with
  | none => exact Option.noConfusion h
  | some a => exact ⟨a, rfl, h⟩

/-- Inverting a successful `pure` on options. -/
theorem optPureEq {α : Type} {x b : α} (h : (pure x : Option α) = some b) : b = x :=
  (Option.some.inj h).symm

/-- `preserve_insert` through an intermediate state whose room map agrees
with the starting one. -/
theorem preserve_insert_over (t : GameStationState) {s s1 : GameStationState}
    {rid : String} {room : GameRoom} (hB : t.rooms = s.rooms)
    (hrooms : s1.rooms = t.rooms.insert rid room)
    (hcap : roomsWF s → room.players.length ≤ room.max_players ∧ room.max_players ≤ 255)
    (hstat : ∀ r, s.rooms rid = some r → statusIdx r.status ≤ statusIdx room.status) :
    (roomsWF s → roomsWF s1) ∧ statusMono s s1 :=
  preserve_insert (by rw [hrooms, hB]) hcap hstat

/-- `handle_create_room` with a positive u8 capacity and a fresh room id
preserves the room invariants. -/
theorem handle_create_room_preserves {env : Env} {gt : GameType} {mp fee : Nat}
    {gm : GameMode} {ts : Nat} {s s1 : GameStationState}
    (h : handle_create_room env gt mp fee gm ts s = some s1)
    (hmp1 : 1 ≤ mp) (hmp255 : mp ≤ 255)
    (hfresh : s.rooms ("room-" ++ gameKey gt ++ "-" ++ toString s.room_counter) = none) :
    (roomsWF s → roomsWF s1) ∧ statusMono s s1 := by
  rw [handle_create_room] at h
  split at h
  · exact Option.noConfusion h
  · cases h
    refine preserve_insert rfl (fun _ => ⟨?_, hmp255⟩) ?_
    · show List.length [_] ≤ mp
      simp only [List.length_cons, List.length_nil]
      omega
    · intro r hr
      rw [hfresh] at hr
      exact Option.noConfusion hr

/-- `handle_join_room` preserves the room invariants. -/
theorem handle_join_room_preserves {owner rid : String} {s s1 : GameStationState}
    (h : handle_join_room owner rid s = some s1) :
    (roomsWF s → roomsWF s1) ∧ statusMono s s1 := by
  rw [handle_join_room] at h
  split at h
  · rename_i room hr
    by_cases hcond : room.status = .Waiting ∧ ¬ room.players.contains owner ∧
        room.players.length % 256 < room.max_players
    · rw [if_pos hcond] at h
      cases h
      refine preserve_insert rfl ?_ ?_
      · intro hw
        obtain ⟨hlen, hmax⟩ := hw rid room hr
        have hg := hcond.2.2
        constructor
        · split
          · show (room.players ++ [owner]).length ≤ room.max_players
            simp only [List.length_append, List.length_cons, List.length_nil]
            omega
          · show (room.players ++ [owner]).length ≤ room.max_players
            simp only [List.length_append, List.length_cons, List.length_nil]
            omega
        · split
          · exact hmax
          · exact hmax
      · intro r hr2
        rw [hr] at hr2
        cases hr2
        rw [hcond.1]
        exact Nat.zero_le _
    · rw [if_neg hcond] at h
      cases h
      exact preserve_of_rooms_eq rfl
  · cases h
    exact preserve_of_rooms_eq rfl

/-- `handle_leave_room` preserves the room invariants. -/
theorem handle_leave_room_preserves {owner rid : String} {s s1 : GameStationState}
    (h : handle_leave_room owner rid s = some s1) :
    (roomsWF s → roomsWF s1) ∧ statusMono s s1 := by
  rw [handle_leave_room] at h
  split at h
  · rename_i room hr
    by_cases hst : room.status = .Waiting
    · rw [if_pos hst] at h
      by_cases hemp : room.players.filter (fun p => p ≠ owner) = []
      · rw [if_pos hemp] at h
        cases h
        exact preserve_remove rfl
      · rw [if_neg hemp] at h
        cases h
        refine preserve_insert rfl ?_ ?_
        · intro hw
          obtain ⟨hlen, hmax⟩ := hw rid room hr
          exact ⟨le_trans (List.length_filter_le _ _) hlen, hmax⟩
        · intro r hr2
          rw [hr] at hr2
          cases hr2
          exact le_refl _
    · rw [if_neg hst] at h
      cases h
      exact preserve_of_rooms_eq rfl
  · cases h
    exact preserve_of_rooms_eq rfl

/-- `handle_close_room` preserves the room invariants. -/
theorem handle_close_room_preserves {rid : String} {s s1 : GameStationState}
    (h : handle_close_room rid s = some s1) :
    (roomsWF s → roomsWF s1) ∧ statusMono s s1 := by
  rw [handle_close_room] at h
  split at h
  · rename_i room hr
    cases h
    refine preserve_insert rfl ?_ ?_
    · intro hw
      exact hw rid room hr
    · intro r hr2
      exact statusIdx_le_two _
  · cases h
    exact preserve_of_rooms_eq rfl

/-- `handle_make_move` preserves the room invariants. -/
theorem handle_make_move_preserves {owner rid move_data : String} {ts : Nat}
    {s s1 : GameStationState}
    (h : handle_make_move owner rid move_data ts s = some s1) :
    (roomsWF s → roomsWF s1) ∧ statusMono s s1 := by
  rw [handle_make_move] at h
  split at h
  · cases h
    exact preserve_of_rooms_eq rfl
  · split at h
    · rename_i room hr
      by_cases hcond : room.status = .InProgress ∧ room.players.contains owner
      · rw [if_pos hcond] at h
        obtain ⟨ns, hns, h⟩ := optBindEq h
        obtain ⟨won, hwon, h⟩ := optBindEq h
        have hb := optPureEq h
        subst hb
        have hsb : (if won = true then removeFromActiveRooms s rid else s).rooms =
            s.rooms := by
          split <;> rfl
        refine preserve_insert_over
          (if won = true then removeFromActiveRooms s rid else s) hsb rfl ?_ ?_
        · intro hw
          obtain ⟨hlen, hmax⟩ := hw rid room hr
          constructor
          · split
            · exact hlen
            · exact hlen
          · split
            · exact hmax
            · exact hmax
        · intro r hr2
          rw [hr] at hr2
          cases hr2
          split
          · exact statusIdx_le_two _
          · exact le_refl _
      · rw [if_neg hcond] at h
        cases h
        exact preserve_of_rooms_eq rfl
    · cases h
      exact preserve_of_rooms_eq rfl

/-- Every operation handler preserves the room invariants, given the
capacity and freshness side conditions on `CreateRoom`. -/
theorem dispatch_preserves {env : Env} {owner : String} {ts : Nat} {op : Operation}
    {s s1 : GameStationState} (hd : dispatchOperation env owner ts op s = some s1)
    (hcr : ∀ gt mp fee gm, op = Operation.CreateRoom gt mp fee gm →
      1 ≤ mp ∧ mp ≤ 255 ∧
      s.rooms ("room-" ++ gameKey gt ++ "-" ++ toString s.room_counter) = none) :
    (roomsWF s → roomsWF s1) ∧ statusMono s s1 := by
  cases op with
  | SubmitSnakeScore score gm =>
    have h : handle_submit_snake_score env owner score gm s = some s1 := hd
    exact preserve_of_rooms_eq (handle_submit_snake_score_rooms h)
  | SubmitTicTacToeResult won gm =>
    have h : handle_submit_tictactoe_result env owner won gm s = some s1 := hd
    exact preserve_of_rooms_eq (handle_submit_tictactoe_result_rooms h)
  | SubmitSnakeLaddersResult won gm =>
    have h : handle_submit_snakeladders_result env owner won gm s = some s1 := hd
    exact preserve_of_rooms_eq (handle_submit_snakeladders_result_rooms h)
  | SubmitUnoResult won gm =>
    have h : handle_submit_uno_result env owner won gm s = some s1 := hd
    exact preserve_of_rooms_eq (handle_submit_uno_result_rooms h)
  | UpdateProfile u av =>
    have h : handle_update_profile env owner u av s = some s1 := hd
    exact preserve_of_rooms_eq (handle_update_profile_rooms h)
  | CreateRoom gt mp fee gm =>
    have h : handle_create_room env gt mp fee gm ts s = some s1 := hd
    obtain ⟨h1, h2, h3⟩ := hcr gt mp fee gm rfl
    exact handle_create_room_preserves h h1 h2 h3
  | JoinRoom rid =>
    have h : handle_join_room owner rid s = some s1 := hd
    exact handle_join_room_preserves h
  | LeaveRoom rid =>
    have h : handle_leave_room owner rid s = some s1 := hd
    exact handle_leave_room_preserves h
  | MakeMove rid md =>
    have h : handle_make_move owner rid md ts s = some s1 := hd
    exact handle_make_move_preserves h
  | CloseRoom rid =>
    have h : handle_close_room rid s = some s1 := hd
    exact handle_close_room_preserves h
  | CreateTournament name gt mp =>
    have h : handle_create_tournament owner name gt mp ts s = some s1 := hd
    refine preserve_of_rooms_eq ?_
    rw [handle_create_tournament] at h
    cases h
    rfl
  | JoinTournament tid =>
    have h : handle_join_tournament owner tid s = some s1 := hd
    refine preserve_of_rooms_eq ?_
    rw [handle_join_tournament] at h
    split at h
    · split at h
      · cases h
        rfl
      · cases h
        rfl
    · cases h
      rfl
  | StartTournament tid =>
    have h : handle_start_tournament tid s = some s1 := hd
    refine preserve_of_rooms_eq ?_
    rw [handle_start_tournament] at h
    split at h
    · split at h
      · cases h
        rfl
      · cases h
        rfl
    · cases h
      rfl
  | AdvanceTournament tid mid w =>
    have h : handle_advance_tournament tid mid w s = some s1 := hd
    refine preserve_of_rooms_eq ?_
    rw [handle_advance_tournament] at h
    split at h
    · split at h
      · cases h
        rfl
      · cases h
        rfl
    · cases h
      rfl
  | SendFriendRequest a =>
    have h : handle_send_friend_request owner a ts s = some s1 := hd
    refine preserve_of_rooms_eq ?_
    rw [handle_send_friend_request] at h
    split at h
    · cases h
      rfl
    · cases h
      rfl
  | AcceptFriendRequest a =>
    have h : handle_accept_friend_request owner a ts s = some s1 := hd
    refine preserve_of_rooms_eq ?_
    rw [handle_accept_friend_request] at h
    cases h
    split <;> split <;> rfl
  | RejectFriendRequest a =>
    have h : handle_reject_friend_request owner a s = some s1 := hd
    refine preserve_of_rooms_eq ?_
    rw [handle_reject_friend_request] at h
    cases h
    rfl
  | RemoveFriend a =>
    have h : handle_remove_friend owner a s = some s1 := hd
    refine preserve_of_rooms_eq ?_
    rw [handle_remove_friend] at h
    cases h
    rfl
  | CreateChallenge opp gt wager =>
    have h : handle_create_challenge owner opp gt wager ts s = some s1 := hd
    refine preserve_of_rooms_eq ?_
    rw [handle_create_challenge] at h
    cases h
    rfl
  | AcceptChallenge cid =>
    have h : handle_accept_challenge owner cid ts s = some s1 := hd
    refine preserve_of_rooms_eq ?_
    rw [handle_accept_challenge] at h
    split at h
    · split at h
      · cases h
        rfl
      · cases h
        rfl
    · cases h
      rfl
  | DeclineChallenge cid =>
    have h : handle_decline_challenge cid s = some s1 := hd
    refine preserve_of_rooms_eq ?_
    rw [handle_decline_challenge] at h
    split at h
    · split at h
      · cases h
        rfl
      · cases h
        rfl
    · cases h
      rfl

/-- Every message arm except `PlayerJoinedRoom` preserves the room
invariants. -/
theorem message_preserves {env : Env} {msg : Message} {s s1 : GameStationState}
    (hd : execute_message env msg s = some s1)
    (hpj : ∀ rid p, msg ≠ Message.PlayerJoinedRoom rid p) :
    (roomsWF s → roomsWF s1) ∧ statusMono s s1 := by
  cases msg with
  | RoomCreated a b c =>
    have h : some s = some s1 := hd
    cases h
    exact preserve_of_rooms_eq rfl
  | PlayerJoinedRoom rid p => exact absurd rfl (hpj rid p)
  | GameMove rid p md =>
    have h : handle_msg_game_move env rid p md s = some s1 := hd
    rw [handle_msg_game_move] at h
    split at h
    · rename_i room hr
      obtain ⟨ns, hns, h⟩ := optBindEq h
      have hb := optPureEq h
      subst hb
      refine preserve_insert rfl ?_ ?_
      · intro hw
        obtain ⟨hlen, hmax⟩ := hw rid room hr
        exact ⟨hlen, hmax⟩
      · intro r hr2
        rw [hr] at hr2
        cases hr2
        exact le_refl _
    · cases h
      exact preserve_of_rooms_eq rfl
  | GameEnded rid w =>
    have h : handle_msg_game_ended rid w s = some s1 := hd
    rw [handle_msg_game_ended] at h
    split at h
    · rename_i room hr
      cases h
      refine preserve_insert rfl ?_ ?_
      · intro hw
        exact hw rid room hr
      · intro r hr2
        exact statusIdx_le_two _
    · cases h
      exact preserve_of_rooms_eq rfl
  | TournamentStarted a =>
    have h : some s = some s1 := hd
    cases h
    exact preserve_of_rooms_eq rfl
  | MatchCompleted a b c =>
    have h : some s = some s1 := hd
    cases h
    exact preserve_of_rooms_eq rfl
  | InitializeRoom a b c d e =>
    have h : some s = some s1 := hd
    cases h
    exact preserve_of_rooms_eq rfl
  | RoomChainReady a b c d =>
    have h : some s = some s1 := hd
    cases h
    exact preserve_of_rooms_eq rfl
  | PlayerJoiningRoom a b =>
    have h : some s = some s1 := hd
    cases h
    exact preserve_of_rooms_eq rfl
  | ProcessMove a b c =>
    have h : some s = some s1 := hd
    cases h
    exact preserve_of_rooms_eq rfl
  | GameEndedWithStats rid w stats gt d =>
    have h : handle_msg_stats env rid w stats gt s = some s1 := hd
    rw [handle_msg_stats] at h
    obtain ⟨s2, hs2, h⟩ := optBindEq h
    have hb := optPureEq h
    subst hb
    refine preserve_of_rooms_eq ?_
    exact foldl_stats_rooms stats s s2 hs2

/-- C5. The spec claims the capacity bound `players.length ≤ max_players`
and forward-only status transitions hold in every reachable state across
every operation and message handler.  Corrected: the invariants are
preserved by every operation only under side conditions on `CreateRoom`
(capacity between 1 and 255 and a fresh room id — the handler checks
neither, so `CreateRoom` with `max_players = 0` yields a room with one
player and capacity 0, breaking the bound), and by every message except
`PlayerJoinedRoom` (whose mirror update is unguarded by status or
capacity). -/
theorem claim_C5 :
    (∀ (env : Env) (op : Operation) (s s1 : GameStationState),
      execute_operation env op s = some s1 →
      (∀ gt mp fee gm, op = Operation.CreateRoom gt mp fee gm →
        1 ≤ mp ∧ mp ≤ 255 ∧
        s.rooms ("room-" ++ gameKey gt ++ "-" ++ toString s.room_counter) = none) →
      (roomsWF s → roomsWF s1) ∧ statusMono s s1) ∧
    (∀ (env : Env) (msg : Message) (s s1 : GameStationState),
      execute_message env msg s = some s1 →
      (∀ rid p, msg ≠ Message.PlayerJoinedRoom rid p) →
      (roomsWF s → roomsWF s1) ∧ statusMono s s1) := by
  constructor
  · intro env op s s1 hex hcr
    have hexec : execute_operation env op s =
        (if is_operation_processed s
            (generate_operation_id op (env.signer.getD "anonymous") env.wallClock) = true
          then some s
          else (dispatchOperation env (env.signer.getD "anonymous") env.sysTime op s).map
            (fun s2 => mark_operation_processed s2
              (generate_operation_id op (env.signer.getD "anonymous") env.wallClock))) :=
      rfl
    rw [hexec] at hex
    split at hex
    · cases hex
      exact preserve_of_rooms_eq rfl
    · rcases hdp : dispatchOperation env (env.signer.getD "anonymous") env.sysTime op s
        with _ | s2 <;> rw [hdp] at hex
      · exact Option.noConfusion hex
      · rw [Option.map_some'] at hex
        cases hex
        exact preserve_transfer
          (show (mark_operation_processed s2 (generate_operation_id op
            (env.signer.getD "anonymous") env.wallClock)).rooms = s2.rooms from rfl)
          (dispatch_preserves hdp hcr)
  · intro env msg s s1 hex hpj
    exact message_preserves hex hpj

/-- The `CreateRoom` capacity breach refuting the unconditional C5
invariant: a room created with `max_players = 0` immediately stores one
player in a zero-capacity room. -/
theorem claim_C5_counterexample :
    ∃ s1, execute_operation testEnv
        (Operation.CreateRoom GameType.Snake 0 0 GameMode.Solo)
        (instantiateState "main") = some s1 ∧
      roomsWF (instantiateState "main") ∧ ¬ roomsWF s1 := by
  refine ⟨_, rfl, ?_, ?_⟩
  · intro id r hr
    exact Option.noConfusion hr
  · intro hw
    exact Nat.not_succ_le_zero 0 (hw "room-snake-0" _ rfl).1

/-- Closed instance of C5: a `CloseRoom` dispatch on the fresh hub state
satisfies the preservation property. -/
theorem claim_C5_witness :
    (roomsWF (instantiateState "main") →
      roomsWF ((execute_operation testEnv (Operation.CloseRoom "r")
        (instantiateState "main")).getD (instantiateState "main"))) ∧
    statusMono (instantiateState "main")
      ((execute_operation testEnv (Operation.CloseRoom "r")
        (instantiateState "main")).getD (instantiateState "main")) :=
  claim_C5.1 testEnv (Operation.CloseRoom "r") (instantiateState "main") _ rfl
    (fun _ _ _ _ hop => Operation.noConfusion hop)

end GameStation
